import Mathlib

/-!
Movie-Reservation-System: hall diagram and movie handlers.

A shallow embedding of `hall_diagram.go` and `main.go`.

Go's `int` is taken to be the 64-bit two's-complement type (`strconv.IntSize = 64`);
every arithmetic operation of the handler is wrapped accordingly.
-/

namespace MovieReservation

/-! ## Machine integers -/

/-- Largest value of Go's `int` (64 bit). -/
def maxInt : Int := 9223372036854775807

/-- Smallest value of Go's `int` (64 bit). -/
def minInt : Int := -9223372036854775808

/-- Largest value of Go's `uint64`. -/
def maxUint64 : Nat := 18446744073709551615

/-- Reduction of a mathematical integer to the value a 64-bit `int` holds. -/
def wrapInt (x : Int) : Int := (x + 9223372036854775808) % 18446744073709551616 - 9223372036854775808

/-- Go `a + b` on `int`. -/
def addInt (a b : Int) : Int := wrapInt (a + b)

/-- Go `a - b` on `int`. -/
def subInt (a b : Int) : Int := wrapInt (a - b)

/-- Go `a * b` on `int`. -/
def mulInt (a b : Int) : Int := wrapInt (a * b)

/-! ## strconv.Atoi

`strconv.Atoi(s)` is documented as `ParseInt(s, 10, 0)` converted to `int`; the
definitions below follow `ParseUint` and `ParseInt` of Go's `strconv` for base 10
and bit size 64.  A Go string is a byte sequence; a byte is a decimal digit exactly
when the character it belongs to is one of `0` .. `9`, so the loop runs over the
characters. -/

/-- The two errors of `strconv`: `ErrSyntax` and `ErrRange`. -/
inductive NumError where
  | invalid
  | outOfRange
  deriving DecidableEq, Repr

/-- The `cutoff` of `ParseUint` for base 10: the smallest `n` with `n * 10 > maxUint64`. -/
def uintCutoff : Nat := maxUint64 / 10 + 1

/-- The digit loop of `ParseUint(s, 10, 64)`: the value and the error, if any. -/
def parseUintLoop : List Char → Nat → Nat × Option NumError
  | [], n => (n, none)
  | c :: cs, n =>
    if c.isDigit then
      let d := c.toNat - 48
      if n ≥ uintCutoff then (maxUint64, some .outOfRange)
      else
        let n10 := n * 10
        let n1 := (n10 + d) % 18446744073709551616
        if n1 < n10 ∨ n1 > maxUint64 then (maxUint64, some .outOfRange)
        else parseUintLoop cs n1
    else (0, some .invalid)

/-- Go `strconv.ParseUint(s, 10, 64)` on the characters of `s`. -/
def ParseUint (s : List Char) : Nat × Option NumError :=
  if s = [] then (0, some .invalid) else parseUintLoop s 0

/-- The part of `ParseInt` after the leading sign is picked off: `neg` tells whether the
sign was `-`, `body` is what follows the sign. -/
def parseIntSigned (neg : Bool) (body : List Char) : Int × Option NumError :=
  let r := ParseUint body
  if r.2 = some .invalid then (0, some .invalid)
  else
    let un := r.1
    let cutoff : Nat := 9223372036854775808
    if neg = false ∧ un ≥ cutoff then ((cutoff : Int) - 1, some .outOfRange)
    else if neg = true ∧ un > cutoff then (-(cutoff : Int), some .outOfRange)
    else
      let n := wrapInt un
      (if neg then wrapInt (-n) else n, none)

/-- Go `strconv.ParseInt(s, 10, 0)` on the characters of `s`. -/
def ParseInt (s : List Char) : Int × Option NumError :=
  match s with
  | [] => (0, some .invalid)
  | c :: cs =>
    if c = '+' then parseIntSigned false cs
    else if c = '-' then parseIntSigned true cs
    else parseIntSigned false (c :: cs)

/-- Go `strconv.Atoi`. -/
def Atoi (s : String) : Int × Option NumError := ParseInt s.data

/-! ## hall_diagram.go -/

/-- Source: `parseIntOrDefault` (hall_diagram.go). -/
def parseIntOrDefault (s : String) (d : Int) : Int :=
  if s = "" then d
  else
    let r := Atoi s
    if r.2 ≠ none ∨ r.1 ≤ 0 then d else r.1

/-- The three query parameters as the handler reads them (`q.Get`, empty when absent). -/
structure HallQuery where
  rows : String
  cols : String
  occupiedPct : String

/-- The three parsed parameters of `HallDiagramHandler`. -/
structure HallParams where
  rows : Int
  cols : Int
  occupiedPct : Int
  deriving DecidableEq, Repr

/-- Source: the first three statements of `HallDiagramHandler`. -/
def hallParams (q : HallQuery) : HallParams :=
  { rows := parseIntOrDefault q.rows 8
    cols := parseIntOrDefault q.cols 12
    occupiedPct := parseIntOrDefault q.occupiedPct 30 }

/-! ### Reading of the words "decimal integer literal" -/

/-- Value of a digit string read in base 10. -/
def digitsValue (cs : List Char) : Nat :=
  cs.foldl (fun n c => n * 10 + (c.toNat - 48)) 0

/-- A non-empty string of decimal digits. -/
def isDigits (cs : List Char) : Bool := !cs.isEmpty && cs.all Char.isDigit

/-- The value of `s` as a decimal integer literal (an optional sign followed by one
or more decimal digits), with no bound on its size; `none` when `s` is no such literal. -/
def decimalLiteral (s : String) : Option Int :=
  match s.data with
  | [] => none
  | c :: cs =>
    if c = '-' then (if isDigits cs then some (-(digitsValue cs : Int)) else none)
    else if c = '+' then (if isDigits cs then some (digitsValue cs : Int) else none)
    else if isDigits (c :: cs) then some (digitsValue (c :: cs) : Int) else none

/-! ### Geometry (Go `image` package) -/

/-- Go `image.Point`. -/
structure Point where
  X : Int
  Y : Int
  deriving DecidableEq, Repr

/-- Go `image.Rectangle`: the points with `Min.X ≤ x < Max.X` and `Min.Y ≤ y < Max.Y`. -/
structure Rectangle where
  Min : Point
  Max : Point
  deriving DecidableEq, Repr

/-- Go `image.Rect`: the rectangle of the two corners, put in canonical order. -/
def Rect (x0 y0 x1 y1 : Int) : Rectangle :=
  let (a0, a1) := if x0 > x1 then (x1, x0) else (x0, x1)
  let (b0, b1) := if y0 > y1 then (y1, y0) else (y0, y1)
  { Min := ⟨a0, b0⟩, Max := ⟨a1, b1⟩ }

/-- Go `Rectangle.Dx`. -/
def Rectangle.Dx (r : Rectangle) : Int := subInt r.Max.X r.Min.X

/-- Go `Rectangle.Dy`. -/
def Rectangle.Dy (r : Rectangle) : Int := subInt r.Max.Y r.Min.Y

/-- Go `Rectangle.Empty`. -/
def Rectangle.Empty (r : Rectangle) : Bool :=
  decide (r.Min.X ≥ r.Max.X) || decide (r.Min.Y ≥ r.Max.Y)

/-- Go `Rectangle.In`: every point of `r` is a point of `s`. -/
def Rectangle.In (r s : Rectangle) : Bool :=
  if r.Empty then true
  else decide (s.Min.X ≤ r.Min.X) && decide (r.Max.X ≤ s.Max.X) &&
       decide (s.Min.Y ≤ r.Min.Y) && decide (r.Max.Y ≤ s.Max.Y)

/-- Go `Rectangle.Overlaps`: the two rectangles share a point. -/
def Rectangle.Overlaps (r s : Rectangle) : Bool :=
  !r.Empty && !s.Empty &&
  decide (r.Min.X < s.Max.X) && decide (s.Min.X < r.Max.X) &&
  decide (r.Min.Y < s.Max.Y) && decide (s.Min.Y < r.Max.Y)

/-- Go `Point.In`. -/
def Point.In (p : Point) (r : Rectangle) : Bool :=
  decide (r.Min.X ≤ p.X) && decide (p.X < r.Max.X) &&
  decide (r.Min.Y ≤ p.Y) && decide (p.Y < r.Max.Y)

/-! ### Layout constants and image size -/

/-- Source: `seatSize := 36`. -/
def seatSize : Int := 36

/-- Source: `seatGap := 6`. -/
def seatGap : Int := 6

/-- Source: `margin := 20`. -/
def margin : Int := 20

/-- Source: `legendWidth := 220`. -/
def legendWidth : Int := 220

/-- Source: `width := margin*2 + cols*(seatSize+seatGap) - seatGap + legendWidth`. -/
def hallWidth (cols : Int) : Int :=
  addInt (subInt (addInt (mulInt margin 2) (mulInt cols (addInt seatSize seatGap))) seatGap)
    legendWidth

/-- Source: `height := margin*2 + rows*(seatSize+seatGap) - seatGap`. -/
def hallHeight (rows : Int) : Int :=
  subInt (addInt (mulInt margin 2) (mulInt rows (addInt seatSize seatGap))) seatGap

/-- Source: `image.Rect(0, 0, width, height)`, the rectangle the handler passes to
`image.NewRGBA`; it is the bounds of the image when `image.NewRGBA` returns one
(see `hallImage`). -/
def hallBounds (rows cols : Int) : Rectangle := Rect 0 0 (hallWidth cols) (hallHeight rows)

/-- Go `image.mul3NonNeg`: `x * y * z`, or `-1` when an argument is negative or the
product does not fit `int`; `bits.Mul64` gives the high and low 64 bits of a product. -/
def mul3NonNeg (x y z : Int) : Int :=
  if x < 0 ∨ y < 0 ∨ z < 0 then -1
  else
    let p := x.toNat * y.toNat
    let hi := p / 18446744073709551616
    let lo := p % 18446744073709551616
    if hi ≠ 0 then -1
    else
      let q := lo * z.toNat
      let hi2 := q / 18446744073709551616
      let lo2 := q % 18446744073709551616
      if hi2 ≠ 0 then -1
      else
        let a := wrapInt lo2
        if a < 0 then -1 else a

/-- Go `image.pixelBufferLength`: the length of the pixel slice, `none` when the
function panics ("Rectangle has huge or negative dimensions"). -/
def pixelBufferLength (bytesPerPixel : Int) (r : Rectangle) : Option Int :=
  let totalLength := mul3NonNeg bytesPerPixel r.Dx r.Dy
  if totalLength < 0 then none else some totalLength

/-- Go `image.NewRGBA(r)`: the bounds of the image created, `none` when no image is
created: `pixelBufferLength` panics, or `make([]uint8, n)` cannot provide the `n` bytes
of the pixel buffer.  `heap` is the largest number of bytes the Go runtime can allocate
at the time of the call, a fact of the machine the handler runs on. -/
def NewRGBA (heap : Nat) (r : Rectangle) : Option Rectangle :=
  match pixelBufferLength 4 r with
  | none => none
  | some n => if n.toNat ≤ heap then some r else none

/-- Source: `img := image.NewRGBA(image.Rect(0, 0, width, height))`: the bounds of the
image the handler creates, `none` when the call does not return. -/
def hallImage (heap : Nat) (rows cols : Int) : Option Rectangle :=
  NewRGBA heap (hallBounds rows cols)

/-- Reading of the claim's size, in the integers: the number of bytes of an RGBA image
`margin*2 + cols*(seatSize+seatGap) - seatGap + legendWidth` wide and
`margin*2 + rows*(seatSize+seatGap) - seatGap` tall. -/
def bufferBytes (rows cols : Int) : Int :=
  4 * (margin * 2 + cols * (seatSize + seatGap) - seatGap + legendWidth) *
    (margin * 2 + rows * (seatSize + seatGap) - seatGap)

/-- Source: `startY := margin + 24`. -/
def startY : Int := addInt margin 24

/-- Source: `x := margin + col*(seatSize+seatGap)`. -/
def seatX (col : Int) : Int := addInt margin (mulInt col (addInt seatSize seatGap))

/-- Source: `y := startY + row*(seatSize+seatGap)`. -/
def seatY (row : Int) : Int := addInt startY (mulInt row (addInt seatSize seatGap))

/-- Source: `rect := image.Rect(x, y, x+seatSize, y+seatSize)`. -/
def seatRect (row col : Int) : Rectangle :=
  Rect (seatX col) (seatY row) (addInt (seatX col) seatSize) (addInt (seatY row) seatSize)

/-- Source: `drawRectBorder`, the points it passes to `img.Set`, in order. -/
def drawRectBorder (rect : Rectangle) : List Point :=
  ((List.range (rect.Max.X - rect.Min.X).toNat).flatMap fun i =>
      [⟨rect.Min.X + i, rect.Min.Y⟩, ⟨rect.Min.X + i, subInt rect.Max.Y 1⟩]) ++
  ((List.range (rect.Max.Y - rect.Min.Y).toNat).flatMap fun j =>
      [⟨rect.Min.X, rect.Min.Y + j⟩, ⟨subInt rect.Max.X 1, rect.Min.Y + j⟩])

/-- Go `(*image.RGBA).Set` changes a pixel only when the point is inside the bounds:
the border points of a rectangle that really are painted. -/
def paintedBorder (bounds rect : Rectangle) : List Point :=
  (drawRectBorder rect).filter fun p => p.In bounds

/-! ### Palette and seat colouring -/

/-- Go `color.RGBA`. -/
structure RGBA where
  R : Nat
  G : Nat
  B : Nat
  A : Nat
  deriving DecidableEq, Repr

/-- Source: `colFree`. -/
def colFree : RGBA := ⟨0, 180, 0, 255⟩

/-- Source: `colOccupied`. -/
def colOccupied : RGBA := ⟨200, 0, 0, 255⟩

/-- Source: `colVipFree`. -/
def colVipFree : RGBA := ⟨0, 70, 200, 255⟩

/-- Source: `colVipOcc`. -/
def colVipOcc : RGBA := ⟨150, 50, 150, 255⟩

/-- Source: `colSeatBorder`. -/
def colSeatBorder : RGBA := ⟨30, 30, 30, 255⟩

/-- Source: `isVIP := row >= rows-2`. -/
def isVIP (rows row : Int) : Bool := decide (row ≥ subInt rows 2)

/-- Source: `occupied := rand.Intn(100) < occupiedPct`, for the drawn number `r`. -/
def seatOccupied (occupiedPct : Int) (r : Nat) : Bool := decide ((r : Int) < occupiedPct)

/-- Source: the `switch` choosing `fill`. -/
def seatFill (vip occupied : Bool) : RGBA :=
  if vip && occupied then colVipOcc
  else if vip then colVipFree
  else if occupied then colOccupied
  else colFree

/-- Fill colour of a seat of row `row` in a hall of `rows` rows. -/
def seatColour (rows row : Int) (occupied : Bool) : RGBA :=
  seatFill (isVIP rows row) occupied

/-- The rows of the grid that the loop flags VIP. -/
def vipRows (rows : Nat) : List Nat :=
  (List.range rows).filter fun r => isVIP rows r

/-- The results of `rand.Intn(100)` that mark a seat occupied. -/
def occupiedDraws (occupiedPct : Int) : List Nat :=
  (List.range 100).filter fun r => seatOccupied occupiedPct r

/-! ## main.go: data model -/

/-- Source: `Genre`. -/
structure Genre where
  ID : String
  Name : String
  deriving DecidableEq, Repr

/-- Source: `Movie`.  Instants (`time.Time`) are counted as integers from Go's zero time,
so that the zero value is `0` and later instants are larger. -/
structure Movie where
  ID : String
  Title : String
  Description : String
  PosterURL : String
  Genres : List Genre
  CreatedAt : Int
  deriving DecidableEq, Repr

/-- Source: `CreateMovieInput`. -/
structure CreateMovieInput where
  Title : String
  Description : String
  PosterURL : String
  GenreIDs : List String
  deriving DecidableEq, Repr

/-! ### encoding/json of a `Movie` -/

/-- The values that occur in the JSON object of a `Movie`. -/
inductive JsonValue where
  | str (s : String)
  | time (t : Int)
  | genres (gs : List Genre)
  deriving DecidableEq, Repr

/-- Go `encoding/json` applied to a `Movie` with the struct tags of the source:
`posterUrl` and `genres` carry `omitempty`, which leaves out an empty string and a
slice of length zero; the other four fields are always written. -/
def encodeMovie (m : Movie) : List (String × JsonValue) :=
  [("id", .str m.ID), ("title", .str m.Title), ("description", .str m.Description)] ++
  (if m.PosterURL = "" then [] else [("posterUrl", .str m.PosterURL)]) ++
  (if m.Genres.length = 0 then [] else [("genres", .genres m.Genres)]) ++
  [("createdAt", .time m.CreatedAt)]

/-- The names of the fields of a JSON object. -/
def jsonKeys (o : List (String × JsonValue)) : List String := o.map Prod.fst

/-! ### HTTP responses -/

/-- What a handler writes to the response body. -/
inductive Body where
  | empty
  | text (msg : String)
  | movie (m : Movie)
  | movies (ms : List Movie)
  deriving DecidableEq, Repr

/-- Status code and body of a response. -/
structure Response where
  status : Nat
  body : Body
  deriving DecidableEq, Repr

/-- Go `http.Error(w, msg, code)`. -/
def httpError (msg : String) (code : Nat) : Response := ⟨code, .text msg⟩

/-! ### strings.TrimSpace and isForeignKeyError -/

/-- Go `unicode.IsSpace`. -/
def isSpace (c : Char) : Bool :=
  let n := c.toNat
  (9 ≤ n && n ≤ 13) || n = 32 || n = 0x85 || n = 0xA0 || n = 0x1680 ||
  (0x2000 ≤ n && n ≤ 0x200A) || n = 0x2028 || n = 0x2029 || n = 0x202F ||
  n = 0x205F || n = 0x3000

/-- Go `strings.TrimSpace`: leading and trailing white space removed. -/
def TrimSpace (s : String) : String :=
  ⟨((s.data.dropWhile isSpace).reverse.dropWhile isSpace).reverse⟩

/-- Does `sub` start `s`. -/
def startsWith : List Char → List Char → Bool
  | _, [] => true
  | [], _ :: _ => false
  | c :: cs, d :: ds => c = d && startsWith cs ds

/-- Go `strings.Contains` on character lists. -/
def containsChars : List Char → List Char → Bool
  | [], sub => sub.isEmpty
  | c :: cs, sub => startsWith (c :: cs) sub || containsChars cs sub

/-- Go `strings.Contains`. -/
def Contains (s sub : String) : Bool := containsChars s.data sub.data

/-- Go `unicode.ToLower`: below `0x80` the letters `A` .. `Z` go to `a` .. `z` and every
other character stays; from `0x80` on the result is read from the case tables of the
Unicode standard, which are no part of the sources and are the parameter `u` (they send
the Kelvin sign `U+212A` to `k`, for one). -/
def toLowerRune (u : Char → Char) (c : Char) : Char :=
  if c.toNat < 128 then Char.toLower c else u c

/-- Go `strings.ToLower`: `unicode.ToLower` applied to every character. -/
def ToLower (u : Char → Char) (s : String) : String := ⟨s.data.map (toLowerRune u)⟩

/-- Source: `isForeignKeyError`; an error is its text, `none` is Go's `nil`. -/
def isForeignKeyError (u : Char → Char) (err : Option String) : Bool :=
  match err with
  | none => false
  | some e =>
    let se := ToLower u e
    Contains se "foreign key" || Contains se "a foreign key constraint"

/-- A row of table `movies(id, title, description, poster_url, created_at)`. -/
structure MovieRow where
  id : String
  title : String
  description : String
  posterURL : Option String
  createdAt : Int
  deriving DecidableEq, Repr

/-- Modelled from the spec: the persisted schema of section 6, which is no part of the
sources: `movies`, `genres`, `movie_genres(movie_id, genre_id)` with a foreign key from
`movie_genres.genre_id` to `genres.id` and one from `movie_genres.movie_id` to
`movies.id` (the association goes with its movie when the movie is deleted);
`dependents` holds the movie identifiers that records of external collaborators
(showtimes, reservations) refer to and whose deletion the storage layer blocks. -/
structure Tables where
  movies : List MovieRow
  genres : List Genre
  movieGenres : List (String × String)
  dependents : List String
  deriving DecidableEq, Repr

/-- The statements and transaction calls a handler sends to the storage layer. -/
inductive DbOp where
  | begin
  | insertMovie (row : MovieRow)
  | prepare
  | insertMovieGenre (movieID genreID : String)
  | commit
  | closeStmt
  | rollback
  | deleteMovie (id : String)
  | rowsAffected
  deriving DecidableEq, Repr

/-- Text of the storage error for a missing parent row (MySQL error 1452). -/
def fkChildError : String :=
  "Error 1452 (23000): Cannot add or update a child row: a foreign key constraint fails"

/-- Text of the storage error for a parent row still referred to (MySQL error 1451). -/
def fkParentError : String :=
  "Error 1451 (23000): Cannot delete or update a parent row: a foreign key constraint fails"

/-- Failures of the storage layer that do not depend on the data (lost connection,
deadlock, ...): for each call the error it returns, if any.  The association inserts
are numbered by their position in `GenreIDs`. -/
structure Faults where
  begin : Option String
  insertMovie : Option String
  prepare : Option String
  insertGenre : Nat → Option String
  commit : Option String
  delete : Option String
  rowsAffected : Option String

/-- No failure independent of the data. -/
def Faults.none : Faults :=
  { begin := Option.none, insertMovie := Option.none, prepare := Option.none,
    insertGenre := fun _ => Option.none, commit := Option.none, delete := Option.none,
    rowsAffected := Option.none }

/-- Modelled from the spec: `INSERT INTO movies` inside the transaction. -/
def execInsertMovie (f : Faults) (t : Tables) (row : MovieRow) : Except String Tables :=
  match f.insertMovie with
  | some e => .error e
  | Option.none => .ok { t with movies := t.movies ++ [row] }

/-- Modelled from the spec: `INSERT INTO movie_genres` inside the transaction; the
storage layer refuses a genre identifier that is not in `genres`. -/
def execInsertMovieGenre (f : Faults) (i : Nat) (t : Tables) (movieID genreID : String) :
    Except String Tables :=
  if genreID ∉ t.genres.map Genre.ID then .error fkChildError
  else match f.insertGenre i with
    | some e => .error e
    | Option.none => .ok { t with movieGenres := t.movieGenres ++ [(movieID, genreID)] }

/-- Modelled from the spec: `DELETE FROM movies WHERE id = ?`: the new tables and the
number of rows deleted; the statement is refused when a dependent record refers to a
row it would delete. -/
def execDeleteMovie (f : Faults) (t : Tables) (id : String) : Except String (Tables × Nat) :=
  match f.delete with
  | some e => .error e
  | Option.none =>
    let hit := t.movies.filter fun m => m.id = id
    if hit.length = 0 then .ok (t, 0)
    else if id ∈ t.dependents then .error fkParentError
    else .ok ({ t with movies := t.movies.filter fun m => m.id ≠ id
                       movieGenres := t.movieGenres.filter fun mg => mg.1 ≠ id },
              hit.length)

/-! ### The query of `listMoviesHandler` -/

/-- A row of the join as `rows.Scan` fills it: `sql.NullString` and `sql.NullTime` are
options, `none` for SQL `NULL`.  The handler skips a row on which `rows.Scan` fails, so
the lists of rows below hold the rows that were scanned. -/
structure JoinedRow where
  id : Option String
  title : Option String
  desc : Option String
  poster : Option String
  created : Option Int
  genreID : Option String
  genreName : Option String
  deriving DecidableEq, Repr

/-- Result of a handler: the response, the committed tables after the request and the
calls made to the storage layer, in order. -/
structure Outcome where
  response : Response
  db : Tables
  trace : List DbOp

/-! ### listMoviesHandler -/

/-- Source: `m := moviesMap[id.String]; if m == nil { m = &Movie{...}; moviesMap[id.String] = m }`.
The map is kept as the list of its entries, a new key going to the end. -/
def storeIfAbsent (moviesMap : List (String × Movie)) (id : String) (row : JoinedRow) :
    List (String × Movie) :=
  match moviesMap.lookup id with
  | some _ => moviesMap
  | Option.none =>
    moviesMap ++ [(id, { ID := id, Title := row.title.getD "",
                         Description := row.desc.getD "", PosterURL := row.poster.getD "",
                         Genres := [], CreatedAt := row.created.getD 0 })]

/-- Source: one turn of the `rows.Next()` loop on `moviesMap`; `m.Genres = append(...)`
through the pointer stored in the map changes the entry of that key. -/
def scanRow (moviesMap : List (String × Movie)) (row : JoinedRow) : List (String × Movie) :=
  match row.id with
  | Option.none => moviesMap
  | some id =>
    match row.genreID with
    | some gid =>
      (storeIfAbsent moviesMap id row).map fun e =>
        if e.1 = id then
          (e.1, { e.2 with Genres := e.2.Genres ++ [⟨gid, row.genreName.getD ""⟩] })
        else e
    | Option.none => storeIfAbsent moviesMap id row

/-- Source: the `rows.Next()` loop, from the empty map. -/
def groupRows (rows : List JoinedRow) : List (String × Movie) :=
  rows.foldl scanRow []

/-- Reading of the words "the genres of the rows that carry that identifier and a non-null
genre id": the genres of those rows, in the order of the rows. -/
def rowGenres (id : String) (rows : List JoinedRow) : List Genre :=
  (rows.filter fun r => r.id = some id).filterMap fun r =>
    r.genreID.map fun g => ⟨g, r.genreName.getD ""⟩

/-- Invariant of the `rows.Next()` loop after the rows `rows`: the keys of the map are
distinct, they are the identifiers the rows carry, and the entry of a key holds that
identifier and the genres of its rows. -/
def GroupInv (mm : List (String × Movie)) (rows : List JoinedRow) : Prop :=
  (mm.map Prod.fst).Nodup ∧
  (∀ k, k ∈ mm.map Prod.fst ↔ some k ∈ rows.map JoinedRow.id) ∧
  (∀ e ∈ mm, e.2.ID = e.1 ∧ e.2.Genres = rowGenres e.1 rows)

/-- Go leaves the order in which `range` visits a map unspecified: any arrangement of
the entries can come out. -/
structure MapIter where
  order : List (String × Movie) → List (String × Movie)
  perm : ∀ l, (order l).Perm l

/-- The iteration that visits the entries in the order the keys were first stored. -/
def MapIter.firstSeen : MapIter := ⟨id, fun _ => List.Perm.refl _⟩

/-- The iteration that visits the entries last stored first. -/
def MapIter.lastSeen : MapIter := ⟨List.reverse, fun l => List.reverse_perm l⟩

/-- Source: `list := ...; for _, mv := range moviesMap { list = append(list, *mv) }`. -/
def listMovies (it : MapIter) (rows : List JoinedRow) : List Movie :=
  (it.order (groupRows rows)).map Prod.snd

/-- Source: `listMoviesHandler`; `q` is the result of `a.db.Queryx`. -/
def listMoviesHandler (it : MapIter) (q : Except String (List JoinedRow)) : Response :=
  match q with
  | .error _ => httpError "db error" 500
  | .ok rows => ⟨200, .movies (listMovies it rows)⟩

/-- The JSON array the list handler writes. -/
def encodeMovies (ms : List Movie) : List (List (String × JsonValue)) := ms.map encodeMovie

/-- What the environment supplies to a request: `uuid.Parse` (does the identifier
parse), the case tables of `unicode.ToLower` from `0x80` on, the identifier
`uuid.New().String()` returns, the instant `time.Now()` returns and the failures of the
storage layer. -/
structure Env where
  uuidParses : String → Bool
  unicodeLower : Char → Char
  newID : String
  now : Int
  faults : Faults

/-- The request passes the validation of `createMovieHandler`: title and description are
not empty after trimming and every genre identifier parses as a UUID. -/
def Valid (env : Env) (inp : CreateMovieInput) : Prop :=
  TrimSpace inp.Title ≠ "" ∧ TrimSpace inp.Description ≠ "" ∧
  ∀ g ∈ inp.GenreIDs, env.uuidParses g = true

/-- Source: `nullString`. -/
def nullString (s : String) : Option String :=
  if TrimSpace s = "" then Option.none else some s

/-- Source: the loop `for _, gid := range in.GenreIDs` over the prepared statement, from
position `i` on, in the tables `t` of the open transaction and after the calls `tr`:
either the error response with the calls made, or the tables and the calls made. -/
def insertGenres (u : Char → Char) (f : Faults) (id : String) :
    List String → Nat → Tables → List DbOp → Except (Response × List DbOp) (Tables × List DbOp)
  | [], _, t, tr => .ok (t, tr)
  | gid :: rest, i, t, tr =>
    if gid = "" then insertGenres u f id rest (i + 1) t tr
    else
      match execInsertMovieGenre f i t id gid with
      | .error e =>
        if isForeignKeyError u (some e) then
          .error (httpError "one or more genreIds do not exist" 400,
                  tr ++ [.insertMovieGenre id gid])
        else
          .error (httpError "failed to associate genres" 500,
                  tr ++ [.insertMovieGenre id gid])
      | .ok t1 => insertGenres u f id rest (i + 1) t1 (tr ++ [.insertMovieGenre id gid])

/-- Source: `tx.Commit()` and the success response, after the calls `tr`; `deferred`
are the deferred calls, run when the handler returns. -/
def commitAndReply (env : Env) (db t : Tables) (inp : CreateMovieInput) (title desc : String)
    (tr deferred : List DbOp) : Outcome :=
  match env.faults.commit with
  | some _ => ⟨httpError "failed to commit" 500, db, tr ++ [.commit] ++ deferred⟩
  | Option.none =>
    ⟨⟨201, .movie { ID := env.newID, Title := title, Description := desc,
                    PosterURL := inp.PosterURL, Genres := [], CreatedAt := env.now }⟩,
     t, tr ++ [.commit] ++ deferred⟩

/-- Source: the row `INSERT INTO movies` is called with. -/
def newMovieRow (env : Env) (inp : CreateMovieInput) : MovieRow :=
  { id := env.newID, title := TrimSpace inp.Title, description := TrimSpace inp.Description,
    posterURL := nullString inp.PosterURL, createdAt := env.now }

/-- Source: `createMovieHandler`, on committed tables `db`; `body` is the decoded request
body, `none` when it is no valid JSON.  A transaction works on a copy of the tables that
replaces the committed ones at `Commit` and is dropped at `Rollback`; the deferred
`tx.Rollback()` runs at every return after `Beginx` succeeded and has no effect after a
commit. -/
def createMovieHandler (env : Env) (db : Tables) (body : Option CreateMovieInput) : Outcome :=
  match body with
  | Option.none => ⟨httpError "invalid json" 400, db, []⟩
  | some inp =>
    let title := TrimSpace inp.Title
    let desc := TrimSpace inp.Description
    if title = "" ∨ desc = "" then
      ⟨httpError "title and description are required" 400, db, []⟩
    else if inp.GenreIDs.any (fun gid => !env.uuidParses gid) then
      ⟨httpError "one or more genreIds are not valid UUIDs" 400, db, []⟩
    else
      match env.faults.begin with
      | some _ => ⟨httpError "db error" 500, db, [.begin]⟩
      | Option.none =>
        let row := newMovieRow env inp
        match execInsertMovie env.faults db row with
        | .error _ =>
          ⟨httpError "failed to insert movie" 500, db, [.begin, .insertMovie row, .rollback]⟩
        | .ok t1 =>
          if inp.GenreIDs.length > 0 then
            match env.faults.prepare with
            | some _ =>
              ⟨httpError "db error" 500, db, [.begin, .insertMovie row, .prepare, .rollback]⟩
            | Option.none =>
              match insertGenres env.unicodeLower env.faults env.newID inp.GenreIDs 0 t1
                      [.begin, .insertMovie row, .prepare] with
              | .error (resp, tr) => ⟨resp, db, tr ++ [.closeStmt, .rollback]⟩
              | .ok (t2, tr) =>
                commitAndReply env db t2 inp title desc tr [.closeStmt, .rollback]
          else
            commitAndReply env db t1 inp title desc [.begin, .insertMovie row] [.rollback]

/-- A sample genre identifier. -/
def dramaID : String := "3f2b8c1e-7a4d-4f60-9b1a-2c5d6e7f8a90"

/-- Sample tables: one genre, one movie with that genre, no dependent record. -/
def sampleTables : Tables :=
  { movies := [⟨"m0", "Alien", "A crew meets a stowaway", Option.none, 10⟩]
    genres := [⟨dramaID, "Drama"⟩]
    movieGenres := [("m0", dramaID)]
    dependents := [] }

/-- A sample environment: identifiers of 36 characters parse, the storage layer does
not fail; no text of the samples has a character from `0x80` on, so the case tables are
never consulted. -/
def sampleEnv : Env :=
  { uuidParses := fun s => s.length = 36, unicodeLower := id, newID := "m1", now := 20,
    faults := Faults.none }

/-! ## Theorems -/

/-! ### Machine arithmetic -/

theorem wrapInt_of_range (x : Int) (h1 : minInt ≤ x) (h2 : x ≤ maxInt) : wrapInt x = x := by
  unfold wrapInt
  unfold minInt at h1
  unfold maxInt at h2
  omega

/-! ### strconv -/

theorem digit_le_nine (c : Char) (h : c.isDigit = true) : c.toNat - 48 ≤ 9 := by
  simp only [Char.isDigit, Bool.and_eq_true, decide_eq_true_eq] at h
  have h2 : c.val.toNat ≤ 57 := h.2
  show c.val.toNat - 48 ≤ 9
  omega

theorem foldl_digits_ge (cs : List Char) (n : Nat) :
    n ≤ cs.foldl (fun n c => n * 10 + (c.toNat - 48)) n := by
  induction cs generalizing n with
  | nil => simp
  | cons c cs ih =>
    simp only [List.foldl_cons]
    exact le_trans (by omega) (ih _)

theorem parseUintLoop_ok (cs : List Char) (n : Nat)
    (hd : cs.all Char.isDigit = true)
    (hv : cs.foldl (fun n c => n * 10 + (c.toNat - 48)) n ≤ maxUint64) :
    parseUintLoop cs n = (cs.foldl (fun n c => n * 10 + (c.toNat - 48)) n, none) := by
  induction cs generalizing n with
  | nil => simp [parseUintLoop]
  | cons c cs ih =>
    simp only [List.all_cons, Bool.and_eq_true] at hd
    simp only [List.foldl_cons] at hv ⊢
    have hge := foldl_digits_ge cs (n * 10 + (c.toNat - 48))
    have h9 := digit_le_nine c hd.1
    have hmax : maxUint64 = 18446744073709551615 := rfl
    have hcut : uintCutoff = 1844674407370955162 := by decide
    have hn : ¬ n ≥ uintCutoff := by omega
    have hmod : (n * 10 + (c.toNat - 48)) % 18446744073709551616 = n * 10 + (c.toNat - 48) :=
      Nat.mod_eq_of_lt (by omega)
    have hcond : ¬ ((n * 10 + (c.toNat - 48)) % 18446744073709551616 < n * 10 ∨
        (n * 10 + (c.toNat - 48)) % 18446744073709551616 > maxUint64) := by
      rw [hmod]; omega
    rw [parseUintLoop]
    simp only [hd.1, if_true, hn, if_false, hcond]
    rw [hmod]
    exact ih _ hd.2 hv

theorem parseUintLoop_range (cs : List Char) (n : Nat)
    (hd : cs.all Char.isDigit = true)
    (hv : maxUint64 < cs.foldl (fun n c => n * 10 + (c.toNat - 48)) n)
    (hn : n ≤ maxUint64) :
    parseUintLoop cs n = (maxUint64, some NumError.outOfRange) := by
  induction cs generalizing n with
  | nil => simp only [List.foldl_nil] at hv; omega
  | cons c cs ih =>
    simp only [List.all_cons, Bool.and_eq_true] at hd
    simp only [List.foldl_cons] at hv
    have h9 := digit_le_nine c hd.1
    have hmax : maxUint64 = 18446744073709551615 := rfl
    have hcut : uintCutoff = 1844674407370955162 := by decide
    rw [parseUintLoop]
    simp only [hd.1, if_true]
    by_cases hc : n ≥ uintCutoff
    · simp only [hc, if_true]
    · simp only [hc, if_false]
      by_cases hov : n * 10 + (c.toNat - 48) ≤ maxUint64
      · have hmod : (n * 10 + (c.toNat - 48)) % 18446744073709551616 = n * 10 + (c.toNat - 48) :=
          Nat.mod_eq_of_lt (by omega)
        have hcond : ¬ ((n * 10 + (c.toNat - 48)) % 18446744073709551616 < n * 10 ∨
            (n * 10 + (c.toNat - 48)) % 18446744073709551616 > maxUint64) := by
          rw [hmod]; omega
        simp only [hcond, if_false]
        rw [hmod]
        exact ih _ hd.2 hv hov
      · have hcond : ((n * 10 + (c.toNat - 48)) % 18446744073709551616 < n * 10 ∨
            (n * 10 + (c.toNat - 48)) % 18446744073709551616 > maxUint64) := by
          left; omega
        simp only [hcond, if_true]

theorem parseUintLoop_not_digits (cs : List Char) (n : Nat)
    (hd : cs.all Char.isDigit = false) :
    (parseUintLoop cs n).2 = some NumError.invalid ∨
      parseUintLoop cs n = (maxUint64, some NumError.outOfRange) := by
  induction cs generalizing n with
  | nil => simp at hd
  | cons c cs ih =>
    rw [parseUintLoop]
    by_cases hc : c.isDigit = true
    · have hrest : cs.all Char.isDigit = false := by
        simp only [List.all_cons, hc, Bool.true_and] at hd
        exact hd
      simp only [hc, if_true]
      split
      · right; rfl
      · split
        · right; rfl
        · exact ih _ hrest
    · simp only [hc]
      left; rfl

theorem ParseUint_ok (body : List Char) (hd : isDigits body = true)
    (hv : digitsValue body ≤ maxUint64) : ParseUint body = (digitsValue body, none) := by
  simp only [isDigits, Bool.and_eq_true, Bool.not_eq_true', List.isEmpty_eq_false] at hd
  unfold ParseUint
  rw [if_neg hd.1]
  exact parseUintLoop_ok body 0 hd.2 hv

theorem ParseUint_range (body : List Char) (hd : isDigits body = true)
    (hv : maxUint64 < digitsValue body) :
    ParseUint body = (maxUint64, some NumError.outOfRange) := by
  simp only [isDigits, Bool.and_eq_true, Bool.not_eq_true', List.isEmpty_eq_false] at hd
  unfold ParseUint
  rw [if_neg hd.1]
  exact parseUintLoop_range body 0 hd.2 hv (by decide)

theorem ParseUint_not_digits (body : List Char) (hd : isDigits body = false) :
    (ParseUint body).2 = some NumError.invalid ∨
      ParseUint body = (maxUint64, some NumError.outOfRange) := by
  unfold ParseUint
  by_cases hb : body = []
  · rw [if_pos hb]; left; rfl
  · rw [if_neg hb]
    apply parseUintLoop_not_digits
    simp only [isDigits, Bool.and_eq_false_iff, Bool.not_eq_false', List.isEmpty_iff] at hd
    rcases hd with h | h
    · exact absurd h hb
    · exact h

/-- The signed value of a digit string. -/
theorem parseIntSigned_ok (neg : Bool) (body : List Char) (hd : isDigits body = true)
    (h1 : minInt ≤ (if neg then -(digitsValue body : Int) else (digitsValue body : Int)))
    (h2 : (if neg then -(digitsValue body : Int) else (digitsValue body : Int)) ≤ maxInt) :
    parseIntSigned neg body =
      ((if neg then -(digitsValue body : Int) else (digitsValue body : Int)), none) := by
  have hmax : maxUint64 = 18446744073709551615 := rfl
  have hv : digitsValue body ≤ maxUint64 := by
    unfold minInt at h1; unfold maxInt at h2
    cases neg <;> simp at h1 h2 <;> omega
  unfold parseIntSigned
  simp only [ParseUint_ok body hd hv]
  unfold minInt at h1; unfold maxInt at h2
  cases neg
  · simp only [Bool.false_eq_true, if_false] at h1 h2 ⊢
    have hc : ¬ (digitsValue body ≥ 9223372036854775808) := by omega
    simp [hc]
    unfold wrapInt; omega
  · simp only [if_true] at h1 h2 ⊢
    have hc : ¬ (digitsValue body > 9223372036854775808) := by omega
    simp [hc]
    unfold wrapInt; omega

theorem parseIntSigned_range (neg : Bool) (body : List Char) (hd : isDigits body = true)
    (h : (if neg then -(digitsValue body : Int) else (digitsValue body : Int)) < minInt ∨
      maxInt < (if neg then -(digitsValue body : Int) else (digitsValue body : Int))) :
    (parseIntSigned neg body).2 = some NumError.outOfRange := by
  have hmax : maxUint64 = 18446744073709551615 := rfl
  unfold minInt maxInt at h
  unfold parseIntSigned
  by_cases hv : digitsValue body ≤ maxUint64
  · simp only [ParseUint_ok body hd hv]
    cases neg
    · simp only [Bool.false_eq_true, if_false] at h
      have hc : digitsValue body ≥ 9223372036854775808 := by omega
      simp [hc]
    · simp only [if_true] at h
      have hc : digitsValue body > 9223372036854775808 := by omega
      simp [hc]
  · simp only [ParseUint_range body hd (by omega)]
    cases neg <;> simp [hmax]

theorem parseIntSigned_not_digits (neg : Bool) (body : List Char) (hd : isDigits body = false) :
    (parseIntSigned neg body).2 ≠ none := by
  have hmax : maxUint64 = 18446744073709551615 := rfl
  unfold parseIntSigned
  rcases ParseUint_not_digits body hd with h | h
  · simp [h]
  · simp only [h]
    cases neg <;> simp [hmax]

theorem Atoi_of_literal (s : String) (v : Int) (h : decimalLiteral s = some v)
    (h1 : minInt ≤ v) (h2 : v ≤ maxInt) : Atoi s = (v, none) := by
  unfold decimalLiteral at h
  unfold Atoi ParseInt
  cases hs : s.data with
  | nil => rw [hs] at h; simp at h
  | cons c cs =>
    rw [hs] at h
    simp only at h ⊢
    by_cases hm : c = '-'
    · have hp : ¬ c = '+' := by rw [hm]; decide
      rw [if_pos hm] at h
      rw [if_neg hp, if_pos hm]
      by_cases hd : isDigits cs = true
      · rw [if_pos hd] at h
        injection h with h
        subst h
        exact parseIntSigned_ok true cs hd h1 h2
      · rw [if_neg hd] at h; simp at h
    · rw [if_neg hm] at h
      by_cases hp : c = '+'
      · rw [if_pos hp] at h ⊢
        by_cases hd : isDigits cs = true
        · rw [if_pos hd] at h
          injection h with h
          subst h
          exact parseIntSigned_ok false cs hd h1 h2
        · rw [if_neg hd] at h; simp at h
      · rw [if_neg hp] at h
        rw [if_neg hp, if_neg hm]
        by_cases hd : isDigits (c :: cs) = true
        · rw [if_pos hd] at h
          injection h with h
          subst h
          exact parseIntSigned_ok false (c :: cs) hd h1 h2
        · rw [if_neg hd] at h; simp at h

theorem Atoi_of_large_literal (s : String) (v : Int) (h : decimalLiteral s = some v)
    (h1 : v < minInt ∨ maxInt < v) : (Atoi s).2 = some NumError.outOfRange := by
  unfold decimalLiteral at h
  unfold Atoi ParseInt
  cases hs : s.data with
  | nil => rw [hs] at h; simp at h
  | cons c cs =>
    rw [hs] at h
    simp only at h ⊢
    by_cases hm : c = '-'
    · have hp : ¬ c = '+' := by rw [hm]; decide
      rw [if_pos hm] at h
      rw [if_neg hp, if_pos hm]
      by_cases hd : isDigits cs = true
      · rw [if_pos hd] at h
        injection h with h
        subst h
        exact parseIntSigned_range true cs hd h1
      · rw [if_neg hd] at h; simp at h
    · rw [if_neg hm] at h
      by_cases hp : c = '+'
      · rw [if_pos hp] at h ⊢
        by_cases hd : isDigits cs = true
        · rw [if_pos hd] at h
          injection h with h
          subst h
          exact parseIntSigned_range false cs hd h1
        · rw [if_neg hd] at h; simp at h
      · rw [if_neg hp] at h
        rw [if_neg hp, if_neg hm]
        by_cases hd : isDigits (c :: cs) = true
        · rw [if_pos hd] at h
          injection h with h
          subst h
          exact parseIntSigned_range false (c :: cs) hd h1
        · rw [if_neg hd] at h; simp at h

theorem Atoi_of_no_literal (s : String) (h : decimalLiteral s = none) : (Atoi s).2 ≠ none := by
  unfold decimalLiteral at h
  unfold Atoi ParseInt
  cases hs : s.data with
  | nil => simp
  | cons c cs =>
    rw [hs] at h
    simp only at h ⊢
    by_cases hm : c = '-'
    · have hp : ¬ c = '+' := by rw [hm]; decide
      rw [if_pos hm] at h
      rw [if_neg hp, if_pos hm]
      by_cases hd : isDigits cs = true
      · rw [if_pos hd] at h; simp at h
      · exact parseIntSigned_not_digits true cs (by simpa using hd)
    · rw [if_neg hm] at h
      by_cases hp : c = '+'
      · rw [if_pos hp] at h ⊢
        by_cases hd : isDigits cs = true
        · rw [if_pos hd] at h; simp at h
        · exact parseIntSigned_not_digits false cs (by simpa using hd)
      · rw [if_neg hp] at h
        rw [if_neg hp, if_neg hm]
        by_cases hd : isDigits (c :: cs) = true
        · rw [if_pos hd] at h; simp at h
        · exact parseIntSigned_not_digits false (c :: cs) (by simpa using hd)

theorem decimalLiteral_empty : decimalLiteral "" = none := rfl

theorem parseIntOrDefault_of_literal (s : String) (d v : Int) (h : decimalLiteral s = some v)
    (h0 : 0 < v) (h2 : v ≤ maxInt) : parseIntOrDefault s d = v := by
  have hne : s ≠ "" := by
    intro he; rw [he, decimalLiteral_empty] at h; simp at h
  have hA := Atoi_of_literal s v h (by unfold minInt; omega) h2
  unfold parseIntOrDefault
  rw [if_neg hne]
  simp only [hA]
  have : ¬ ((none : Option NumError) ≠ none ∨ v ≤ 0) := by
    intro hc; rcases hc with hc | hc
    · exact hc rfl
    · omega
  rw [if_neg this]

theorem parseIntOrDefault_of_other (s : String) (d : Int)
    (h : ∀ v, decimalLiteral s = some v → v ≤ 0 ∨ maxInt < v) : parseIntOrDefault s d = d := by
  unfold parseIntOrDefault
  by_cases hs : s = ""
  · rw [if_pos hs]
  · rw [if_neg hs]
    cases hl : decimalLiteral s with
    | none =>
      have := Atoi_of_no_literal s hl
      simp only [ne_eq, this, not_false_eq_true, true_or, if_true]
    | some v =>
      rcases h v hl with hv | hv
      · by_cases hmin : minInt ≤ v
        · have hA := Atoi_of_literal s v hl hmin (by unfold maxInt; omega)
          simp only [hA, hv, or_true, if_true]
        · have hA := Atoi_of_large_literal s v hl (Or.inl (by omega))
          simp [hA]
      · have hA := Atoi_of_large_literal s v hl (Or.inr hv)
        simp [hA]

theorem Atoi_value_in_range (s : String) (h : (Atoi s).2 = none) :
    minInt ≤ (Atoi s).1 ∧ (Atoi s).1 ≤ maxInt := by
  cases hl : decimalLiteral s with
  | none => exact absurd h (Atoi_of_no_literal s hl)
  | some v =>
    by_cases hr : minInt ≤ v ∧ v ≤ maxInt
    · rw [Atoi_of_literal s v hl hr.1 hr.2]; exact hr
    · have := Atoi_of_large_literal s v hl (by omega)
      rw [this] at h; simp at h

theorem parseIntOrDefault_range (s : String) (d : Int) (h1 : 1 ≤ d) (h2 : d ≤ maxInt) :
    1 ≤ parseIntOrDefault s d ∧ parseIntOrDefault s d ≤ maxInt := by
  unfold parseIntOrDefault
  by_cases hs : s = ""
  · rw [if_pos hs]; exact ⟨h1, h2⟩
  · rw [if_neg hs]
    simp only
    split
    · exact ⟨h1, h2⟩
    · rename_i hc
      have hn : (Atoi s).2 = none := by
        by_contra hne; exact hc (Or.inl hne)
      have hp : ¬ (Atoi s).1 ≤ 0 := fun hle => hc (Or.inr hle)
      exact ⟨by omega, (Atoi_value_in_range s hn).2⟩

/-! ### Image size -/

theorem seatPitch_eq : addInt seatSize seatGap = 42 := by decide

theorem twoMargins_eq : mulInt margin 2 = 40 := by decide

theorem hallWidth_exact (cols : Int) (h0 : 0 ≤ cols) (h1 : cols ≤ 219604096115589894) :
    hallWidth cols = 254 + 42 * cols := by
  unfold hallWidth
  rw [seatPitch_eq, twoMargins_eq]
  unfold addInt subInt mulInt wrapInt seatGap legendWidth
  omega

theorem hallHeight_exact (rows : Int) (h0 : 0 ≤ rows) (h1 : rows ≤ 219604096115589899) :
    hallHeight rows = 34 + 42 * rows := by
  unfold hallHeight
  rw [seatPitch_eq, twoMargins_eq]
  unfold addInt subInt mulInt wrapInt seatGap
  omega

theorem hallBounds_exact (rows cols : Int) (hr0 : 0 ≤ rows) (hr : rows ≤ 219604096115589899)
    (hc0 : 0 ≤ cols) (hc : cols ≤ 219604096115589894) :
    hallBounds rows cols = ⟨⟨0, 0⟩, ⟨254 + 42 * cols, 34 + 42 * rows⟩⟩ := by
  unfold hallBounds Rect
  rw [hallWidth_exact cols hc0 hc, hallHeight_exact rows hr0 hr]
  have h1 : ¬ ((0 : Int) > 254 + 42 * cols) := by omega
  have h2 : ¬ ((0 : Int) > 34 + 42 * rows) := by omega
  simp only [h1, h2, if_false]

theorem seatX_exact (col : Int) (h0 : 0 ≤ col) (h1 : col ≤ 219604096115589894) :
    seatX col = 20 + 42 * col := by
  unfold seatX
  rw [seatPitch_eq]
  unfold addInt mulInt wrapInt margin
  omega

theorem seatY_exact (row : Int) (h0 : 0 ≤ row) (h1 : row ≤ 219604096115589899) :
    seatY row = 44 + 42 * row := by
  have hs : startY = 44 := by decide
  unfold seatY
  rw [seatPitch_eq, hs]
  unfold addInt mulInt wrapInt
  omega

theorem seatRect_exact (row col : Int) (hr0 : 0 ≤ row) (hr : row ≤ 219604096115589898)
    (hc0 : 0 ≤ col) (hc : col ≤ 219604096115589894) :
    seatRect row col = ⟨⟨20 + 42 * col, 44 + 42 * row⟩, ⟨56 + 42 * col, 80 + 42 * row⟩⟩ := by
  unfold seatRect
  rw [seatX_exact col hc0 hc, seatY_exact row hr0 (by omega)]
  have e1 : addInt (20 + 42 * col) seatSize = 56 + 42 * col := by
    unfold addInt wrapInt seatSize; omega
  have e2 : addInt (44 + 42 * row) seatSize = 80 + 42 * row := by
    unfold addInt wrapInt seatSize; omega
  rw [e1, e2]
  unfold Rect
  have h1 : ¬ (20 + 42 * col > 56 + 42 * col) := by omega
  have h2 : ¬ (44 + 42 * row > 80 + 42 * row) := by omega
  simp only [h1, h2, if_false]

/-! ### Counting rows and draws -/

theorem range_filter_lt_length (n k : Nat) :
    ((List.range n).filter fun r => decide (r < k)).length = min k n := by
  induction n with
  | zero => simp
  | succ n ih =>
    rw [List.range_succ, List.filter_append, List.length_append, ih]
    by_cases h : n < k
    · simp [h]; omega
    · simp [h]; omega

theorem range_filter_ge_length (n k : Nat) :
    ((List.range n).filter fun r => decide (k ≤ r)).length = n - k := by
  induction n with
  | zero => simp
  | succ n ih =>
    rw [List.range_succ, List.filter_append, List.length_append, ih]
    by_cases h : k ≤ n
    · simp [h]; omega
    · simp [h]; omega

theorem isVIP_iff (rows row : Int) (h1 : 1 ≤ rows) (h2 : rows ≤ maxInt) :
    isVIP rows row = true ↔ rows - 2 ≤ row := by
  unfold isVIP subInt
  rw [wrapInt_of_range (rows - 2) (by unfold minInt; omega) (by omega)]
  simp

theorem vipRows_length (rows : Nat) (h1 : 1 ≤ rows) (h2 : (rows : Int) ≤ maxInt) :
    (vipRows rows).length = min 2 rows := by
  have hcongr : (vipRows rows) = (List.range rows).filter fun r => decide (rows - 2 ≤ r) := by
    unfold vipRows
    apply List.filter_congr
    intro r _
    have := isVIP_iff (rows : Int) (r : Int) (by omega) h2
    by_cases hv : isVIP (rows : Int) (r : Int) = true
    · have h3 := this.mp hv
      rw [hv]; symm; simp only [decide_eq_true_eq]; omega
    · have h3 : ¬ ((rows : Int) - 2 ≤ r) := fun hc => hv (this.mpr hc)
      simp only [Bool.not_eq_true] at hv
      rw [hv]; symm; simp only [decide_eq_false_iff_not]; omega
  rw [hcongr, range_filter_ge_length]
  omega

theorem occupiedDraws_length (p : Int) (h0 : 0 ≤ p) :
    ((occupiedDraws p).length : Int) = min p 100 := by
  have hcongr : occupiedDraws p = (List.range 100).filter fun r => decide (r < p.toNat) := by
    unfold occupiedDraws
    apply List.filter_congr
    intro r _
    unfold seatOccupied
    by_cases h : (r : Int) < p
    · have : r < p.toNat := by omega
      simp [h, this]
    · have : ¬ r < p.toNat := by omega
      simp [h, this]
  rw [hcongr, range_filter_lt_length]
  omega

/-! ### Grouping of the joined rows -/

theorem map_update_keys (mm : List (String × Movie)) (id : String) (g : Genre) :
    (mm.map fun e =>
      if e.1 = id then (e.1, { e.2 with Genres := e.2.Genres ++ [g] }) else e).map Prod.fst
      = mm.map Prod.fst := by
  rw [List.map_map]
  apply List.map_congr_left
  intro e _
  simp only [Function.comp]
  split <;> rfl

theorem lookup_none_iff_not_key (mm : List (String × Movie)) (id : String) :
    mm.lookup id = none ↔ id ∉ mm.map Prod.fst := by
  rw [List.lookup_eq_none_iff]
  simp only [List.mem_map, not_exists, not_and, bne_iff_ne, ne_eq]
  constructor
  · intro h e he hid; exact h e he hid.symm
  · intro h e he hid; exact h e he hid.symm

theorem scanRow_no_id (mm : List (String × Movie)) (r : JoinedRow) (h : r.id = none) :
    scanRow mm r = mm := by
  unfold scanRow; rw [h]

theorem rowGenres_append (id : String) (rows : List JoinedRow) (r : JoinedRow) :
    rowGenres id (rows ++ [r]) =
      rowGenres id rows ++
        (if r.id = some id then
          (match r.genreID with
           | some g => [(⟨g, r.genreName.getD ""⟩ : Genre)]
           | none => [])
         else []) := by
  unfold rowGenres
  rw [List.filter_append, List.filterMap_append]
  congr 1
  by_cases h : r.id = some id
  · simp only [h, if_true, List.filter_cons, decide_True, List.filter_nil]
    cases hg : r.genreID with
    | none => simp [List.filterMap_cons, hg]
    | some g => simp [List.filterMap_cons, hg]
  · simp [h]

theorem rowGenres_nil_of_absent (id : String) (rows : List JoinedRow)
    (h : some id ∉ rows.map JoinedRow.id) : rowGenres id rows = [] := by
  unfold rowGenres
  have : (rows.filter fun r => r.id = some id) = [] := by
    rw [List.filter_eq_nil_iff]
    intro r hr
    simp only [decide_eq_true_eq]
    intro hc
    exact h (List.mem_map.mpr ⟨r, hr, hc⟩)
  rw [this]; rfl

theorem groupInv_store (mm : List (String × Movie)) (rows : List JoinedRow) (r : JoinedRow)
    (id : String) (hid : r.id = some id) (h : GroupInv mm rows) :
    ((storeIfAbsent mm id r).map Prod.fst).Nodup ∧
    (∀ k, k ∈ (storeIfAbsent mm id r).map Prod.fst ↔ some k ∈ (rows ++ [r]).map JoinedRow.id) ∧
    (∀ e ∈ storeIfAbsent mm id r, e.2.ID = e.1 ∧ e.2.Genres = rowGenres e.1 rows) := by
  obtain ⟨h1, h2, h3⟩ := h
  unfold storeIfAbsent
  cases hl : mm.lookup id with
  | some m0 =>
    have hkey : id ∈ mm.map Prod.fst := by
      by_contra hc
      rw [(lookup_none_iff_not_key mm id).mpr hc] at hl
      simp at hl
    simp only
    refine ⟨h1, ?_, h3⟩
    intro k
    rw [List.map_append, List.mem_append, ← h2 k]
    simp only [List.map_cons, List.map_nil, List.mem_singleton, hid, Option.some.injEq]
    constructor
    · intro hk; exact Or.inl hk
    · rintro (hk | hk)
      · exact hk
      · rw [hk]; exact hkey
  | none =>
    have hkey : id ∉ mm.map Prod.fst := (lookup_none_iff_not_key mm id).mp hl
    simp only
    refine ⟨?_, ?_, ?_⟩
    · rw [List.map_append, List.nodup_append]
      refine ⟨h1, by simp, ?_⟩
      intro a ha hb
      simp only [List.map_cons, List.map_nil, List.mem_singleton] at hb
      rw [hb] at ha
      exact hkey ha
    · intro k
      rw [List.map_append, List.mem_append, List.map_append, List.mem_append, ← h2 k]
      simp only [List.map_cons, List.map_nil, List.mem_singleton, hid, Option.some.injEq]
    · intro e he
      rw [List.mem_append] at he
      rcases he with he | he
      · exact h3 e he
      · simp only [List.mem_singleton] at he
        rw [he]
        refine ⟨rfl, ?_⟩
        simp only
        rw [rowGenres_nil_of_absent id rows]
        rw [← h2 id]; exact hkey

theorem groupInv_step (mm : List (String × Movie)) (rows : List JoinedRow) (r : JoinedRow)
    (h : GroupInv mm rows) : GroupInv (scanRow mm r) (rows ++ [r]) := by
  cases hid : r.id with
  | none =>
    rw [scanRow_no_id mm r hid]
    obtain ⟨h1, h2, h3⟩ := h
    refine ⟨h1, ?_, ?_⟩
    · intro k
      rw [List.map_append, List.mem_append, ← h2 k]
      simp [hid]
    · intro e he
      refine ⟨(h3 e he).1, ?_⟩
      rw [rowGenres_append, (h3 e he).2]
      simp [hid]
  | some id =>
    have hs := groupInv_store mm rows r id hid h
    unfold scanRow
    simp only [hid]
    generalize storeIfAbsent mm id r = mm1 at hs ⊢
    obtain ⟨h1, h2, h3⟩ := hs
    cases hg : r.genreID with
    | none =>
      refine ⟨h1, h2, ?_⟩
      intro e he
      refine ⟨(h3 e he).1, ?_⟩
      rw [rowGenres_append, (h3 e he).2]
      simp [hg]
    | some g =>
      simp only
      refine ⟨?_, ?_, ?_⟩
      · rw [map_update_keys]; exact h1
      · intro k; rw [map_update_keys]; exact h2 k
      · intro e he
        rw [List.mem_map] at he
        obtain ⟨e0, he0, hee⟩ := he
        have := h3 e0 he0
        by_cases hk : e0.1 = id
        · rw [if_pos hk] at hee
          rw [← hee]
          refine ⟨this.1, ?_⟩
          simp only
          rw [rowGenres_append, this.2, hid, hk]
          simp [hg]
        · rw [if_neg hk] at hee
          rw [← hee]
          refine ⟨this.1, ?_⟩
          rw [rowGenres_append, this.2, hid]
          have : ¬ (some id = some e0.1) := by
            intro hc; injection hc with hc; exact hk hc.symm
          simp [this]

theorem groupRows_inv (rows : List JoinedRow) : GroupInv (groupRows rows) rows := by
  induction rows using List.reverseRecOn with
  | nil => exact ⟨List.nodup_nil, by simp [groupRows], by simp [groupRows]⟩
  | append_singleton l a ih =>
    have : groupRows (l ++ [a]) = scanRow (groupRows l) a := by
      unfold groupRows
      rw [List.foldl_append]; rfl
    rw [this]
    exact groupInv_step _ l a ih

theorem listMovies_ids (it : MapIter) (rows : List JoinedRow) :
    (listMovies it rows).map Movie.ID = (it.order (groupRows rows)).map Prod.fst := by
  unfold listMovies
  rw [List.map_map]
  apply List.map_congr_left
  intro e he
  have hmem : e ∈ groupRows rows := (it.perm (groupRows rows)).mem_iff.mp he
  exact ((groupRows_inv rows).2.2 e hmem).1

theorem listMovies_ids_perm (it : MapIter) (rows : List JoinedRow) :
    ((listMovies it rows).map Movie.ID).Perm ((groupRows rows).map Prod.fst) := by
  rw [listMovies_ids]
  exact (it.perm (groupRows rows)).map Prod.fst

theorem listMovies_mem_id (it : MapIter) (rows : List JoinedRow) (id : String) :
    id ∈ (listMovies it rows).map Movie.ID ↔ some id ∈ rows.map JoinedRow.id := by
  rw [(listMovies_ids_perm it rows).mem_iff]
  exact (groupRows_inv rows).2.1 id

theorem listMovies_genres (it : MapIter) (rows : List JoinedRow) (m : Movie)
    (hm : m ∈ listMovies it rows) : m.Genres = rowGenres m.ID rows := by
  unfold listMovies at hm
  rw [List.mem_map] at hm
  obtain ⟨e, he, hem⟩ := hm
  have hmem : e ∈ groupRows rows := (it.perm (groupRows rows)).mem_iff.mp he
  have := (groupRows_inv rows).2.2 e hmem
  rw [← hem, this.2, this.1]

/-! ### Storage errors -/

theorem ToLower_ascii (u : Char → Char) (s : String) (h : ∀ c ∈ s.data, c.toNat < 128) :
    ToLower u s = ⟨s.data.map Char.toLower⟩ := by
  unfold ToLower
  congr 1
  apply List.map_congr_left
  intro c hc
  unfold toLowerRune
  rw [if_pos (h c hc)]

theorem fkChildError_is_fk (u : Char → Char) :
    isForeignKeyError u (some fkChildError) = true := by
  unfold isForeignKeyError
  simp only
  rw [ToLower_ascii u fkChildError (by decide)]
  decide

theorem execInsertMovieGenre_ok (f : Faults) (i : Nat) (t t1 : Tables) (m g : String)
    (h : execInsertMovieGenre f i t m g = .ok t1) :
    g ∈ t.genres.map Genre.ID ∧ f.insertGenre i = none ∧
      t1 = { t with movieGenres := t.movieGenres ++ [(m, g)] } := by
  unfold execInsertMovieGenre at h
  by_cases hg : g ∈ t.genres.map Genre.ID
  · rw [if_neg (not_not.mpr hg)] at h
    cases hf : f.insertGenre i with
    | none =>
      rw [hf] at h
      simp only at h
      injection h with h
      exact ⟨hg, rfl, h.symm⟩
    | some e => rw [hf] at h; simp at h
  · rw [if_pos hg] at h; simp at h

theorem execInsertMovieGenre_missing (f : Faults) (i : Nat) (t : Tables) (m g : String)
    (hg : g ∉ t.genres.map Genre.ID) :
    execInsertMovieGenre f i t m g = .error fkChildError := by
  unfold execInsertMovieGenre
  rw [if_pos hg]

/-! ### The association loop -/

theorem insertGenres_spec (u : Char → Char) (f : Faults) (id : String) (L : List String) :
    ∀ (i : Nat) (t : Tables) (tr : List DbOp),
      (∀ t2 tr2, insertGenres u f id L i t tr = .ok (t2, tr2) →
        t2.genres = t.genres ∧
        ∃ ext, tr2 = tr ++ ext ∧
          ∀ op ∈ ext, ∃ g, op = DbOp.insertMovieGenre id g ∧ g ∈ t.genres.map Genre.ID) ∧
      (∀ resp tr2, insertGenres u f id L i t tr = .error (resp, tr2) →
        ∃ ext g, tr2 = tr ++ ext ++ [DbOp.insertMovieGenre id g] ∧
          (∀ op ∈ ext, ∃ g2, op = DbOp.insertMovieGenre id g2 ∧ g2 ∈ t.genres.map Genre.ID) ∧
          (g ∉ t.genres.map Genre.ID → resp.status = 400) ∧
          (resp.status = 400 ∨ resp.status = 500)) := by
  induction L with
  | nil =>
    intro i t tr
    constructor
    · intro t2 tr2 h
      simp only [insertGenres, Except.ok.injEq, Prod.mk.injEq] at h
      obtain ⟨h1, h2⟩ := h
      subst h1; subst h2
      exact ⟨rfl, [], by simp, by simp⟩
    · intro resp tr2 h
      simp [insertGenres] at h
  | cons gid rest ih =>
    intro i t tr
    by_cases he : gid = ""
    · have hrw : insertGenres u f id (gid :: rest) i t tr =
          insertGenres u f id rest (i + 1) t tr := by
        rw [insertGenres, if_pos he]
      rw [hrw]
      exact ih (i + 1) t tr
    · cases hx : execInsertMovieGenre f i t id gid with
      | error e =>
        have hrw : insertGenres u f id (gid :: rest) i t tr =
            if isForeignKeyError u (some e) then
              .error (httpError "one or more genreIds do not exist" 400,
                      tr ++ [.insertMovieGenre id gid])
            else
              .error (httpError "failed to associate genres" 500,
                      tr ++ [.insertMovieGenre id gid]) := by
          rw [insertGenres, if_neg he, hx]
        rw [hrw]
        constructor
        · intro t2 tr2 h
          split at h <;> simp at h
        · intro resp tr2 h
          refine ⟨[], gid, ?_, by simp, ?_, ?_⟩
          · split at h <;>
            · simp only [Except.error.injEq, Prod.mk.injEq] at h
              rw [← h.2]; simp
          · intro hg
            rw [execInsertMovieGenre_missing f i t id gid hg] at hx
            injection hx with hx
            rw [← hx, fkChildError_is_fk u] at h
            simp only [if_true, Except.error.injEq, Prod.mk.injEq] at h
            rw [← h.1]; rfl
          · split at h <;>
            · simp only [Except.error.injEq, Prod.mk.injEq] at h
              rw [← h.1]; simp [httpError]
      | ok t1 =>
        have hrw : insertGenres u f id (gid :: rest) i t tr =
            insertGenres u f id rest (i + 1) t1 (tr ++ [.insertMovieGenre id gid]) := by
          rw [insertGenres, if_neg he, hx]
        rw [hrw]
        obtain ⟨hg, _, ht1⟩ := execInsertMovieGenre_ok f i t t1 id gid hx
        have hgen : t1.genres = t.genres := by rw [ht1]
        obtain ⟨ih1, ih2⟩ := ih (i + 1) t1 (tr ++ [.insertMovieGenre id gid])
        constructor
        · intro t2 tr2 h
          obtain ⟨hA, ext, hB, hC⟩ := ih1 t2 tr2 h
          refine ⟨hA.trans hgen, DbOp.insertMovieGenre id gid :: ext, ?_, ?_⟩
          · rw [hB]; simp
          · intro op hop
            rcases List.mem_cons.mp hop with hop | hop
            · exact ⟨gid, hop, hg⟩
            · rw [← hgen]; exact hC op hop
        · intro resp tr2 h
          obtain ⟨ext, g, hB, hC, hD, hE⟩ := ih2 resp tr2 h
          refine ⟨DbOp.insertMovieGenre id gid :: ext, g, ?_, ?_, ?_, hE⟩
          · rw [hB]; simp
          · intro op hop
            rcases List.mem_cons.mp hop with hop | hop
            · exact ⟨gid, hop, hg⟩
            · rw [← hgen]; exact hC op hop
          · rw [← hgen]; exact hD

/-! ### The paths of createMovieHandler -/

theorem createMovie_cases (env : Env) (db : Tables) (body : Option CreateMovieInput) :
    ((body = none ∨ ∃ inp, body = some inp ∧ ¬ Valid env inp) ∧
      ∃ msg, createMovieHandler env db body = ⟨httpError msg 400, db, []⟩) ∨
    (∃ inp, body = some inp ∧ Valid env inp ∧
      ((env.faults.begin ≠ none ∧
          createMovieHandler env db body = ⟨httpError "db error" 500, db, [.begin]⟩) ∨
       (env.faults.begin = none ∧ env.faults.insertMovie ≠ none ∧
          createMovieHandler env db body =
            ⟨httpError "failed to insert movie" 500, db,
             [.begin, .insertMovie (newMovieRow env inp), .rollback]⟩) ∨
       (env.faults.begin = none ∧ env.faults.insertMovie = none ∧ inp.GenreIDs ≠ [] ∧
          env.faults.prepare ≠ none ∧
          createMovieHandler env db body =
            ⟨httpError "db error" 500, db,
             [.begin, .insertMovie (newMovieRow env inp), .prepare, .rollback]⟩) ∨
       (env.faults.begin = none ∧ env.faults.insertMovie = none ∧ inp.GenreIDs ≠ [] ∧
          env.faults.prepare = none ∧
          ∃ resp tr,
            insertGenres env.unicodeLower env.faults env.newID inp.GenreIDs 0
              { db with movies := db.movies ++ [newMovieRow env inp] }
              [.begin, .insertMovie (newMovieRow env inp), .prepare] = .error (resp, tr) ∧
            createMovieHandler env db body = ⟨resp, db, tr ++ [.closeStmt, .rollback]⟩) ∨
       (env.faults.begin = none ∧ env.faults.insertMovie = none ∧ inp.GenreIDs ≠ [] ∧
          env.faults.prepare = none ∧
          ∃ t2 tr,
            insertGenres env.unicodeLower env.faults env.newID inp.GenreIDs 0
              { db with movies := db.movies ++ [newMovieRow env inp] }
              [.begin, .insertMovie (newMovieRow env inp), .prepare] = .ok (t2, tr) ∧
            createMovieHandler env db body =
              commitAndReply env db t2 inp (TrimSpace inp.Title) (TrimSpace inp.Description)
                tr [.closeStmt, .rollback]) ∨
       (env.faults.begin = none ∧ env.faults.insertMovie = none ∧ inp.GenreIDs = [] ∧
          createMovieHandler env db body =
            commitAndReply env db { db with movies := db.movies ++ [newMovieRow env inp] } inp
              (TrimSpace inp.Title) (TrimSpace inp.Description)
              [.begin, .insertMovie (newMovieRow env inp)] [.rollback]))) := by
  cases body with
  | none => left; exact ⟨Or.inl rfl, "invalid json", rfl⟩
  | some inp =>
    by_cases hv : TrimSpace inp.Title = "" ∨ TrimSpace inp.Description = ""
    · left
      refine ⟨Or.inr ⟨inp, rfl, ?_⟩, "title and description are required", ?_⟩
      · intro hc; rcases hv with h | h
        · exact hc.1 h
        · exact hc.2.1 h
      · simp only [createMovieHandler, hv, if_true]
    · by_cases hu : inp.GenreIDs.any (fun gid => !env.uuidParses gid) = true
      · left
        refine ⟨Or.inr ⟨inp, rfl, ?_⟩, "one or more genreIds are not valid UUIDs", ?_⟩
        · intro hc
          rw [List.any_eq_true] at hu
          obtain ⟨g, hg, hg2⟩ := hu
          rw [hc.2.2 g hg] at hg2
          simp at hg2
        · simp only [createMovieHandler, hv, if_false, hu, if_true]
      · right
        have hvalid : Valid env inp := by
          refine ⟨fun h => hv (Or.inl h), fun h => hv (Or.inr h), ?_⟩
          intro g hg
          by_contra hc
          apply hu
          rw [List.any_eq_true]
          exact ⟨g, hg, by simpa using hc⟩
        refine ⟨inp, rfl, hvalid, ?_⟩
        cases hb : env.faults.begin with
        | some e =>
          left
          refine ⟨by simp, ?_⟩
          simp only [createMovieHandler, hv, if_false, hu, Bool.false_eq_true, List.any_nil, hb]
        | none =>
          right
          cases hi : env.faults.insertMovie with
          | some e =>
            left
            refine ⟨rfl, by simp, ?_⟩
            simp only [createMovieHandler, hv, if_false, hu, Bool.false_eq_true, List.any_nil, hb, execInsertMovie, hi]
          | none =>
            right
            by_cases hl : inp.GenreIDs = []
            · right; right; right
              refine ⟨rfl, rfl, hl, ?_⟩
              simp only [createMovieHandler, hv, if_false, hu, Bool.false_eq_true, List.any_nil, hb, execInsertMovie, hi, hl,
                List.length_nil, gt_iff_lt, lt_self_iff_false]
            · have hlen : inp.GenreIDs.length > 0 := List.length_pos.mpr hl
              cases hp : env.faults.prepare with
              | some e =>
                left
                refine ⟨rfl, rfl, hl, by simp, ?_⟩
                simp only [createMovieHandler, hv, if_false, hu, Bool.false_eq_true, List.any_nil, hb, execInsertMovie, hi, hlen,
                  if_true, hp]
              | none =>
                right
                cases hg : insertGenres env.unicodeLower env.faults env.newID inp.GenreIDs 0
                    { db with movies := db.movies ++ [newMovieRow env inp] }
                    [.begin, .insertMovie (newMovieRow env inp), .prepare] with
                | error x =>
                  left
                  refine ⟨rfl, rfl, hl, rfl, x.1, x.2, rfl, ?_⟩
                  simp only [createMovieHandler, hv, if_false, hu, Bool.false_eq_true, List.any_nil, hb, execInsertMovie, hi, hlen,
                    if_true, hp, hg]
                | ok x =>
                  right; left
                  refine ⟨rfl, rfl, hl, rfl, x.1, x.2, rfl, ?_⟩
                  simp only [createMovieHandler, hv, if_false, hu, Bool.false_eq_true, List.any_nil, hb, execInsertMovie, hi, hlen,
                    if_true, hp, hg]

theorem commitAndReply_trace (env : Env) (db t : Tables) (inp : CreateMovieInput)
    (a b : String) (tr d : List DbOp) :
    (commitAndReply env db t inp a b tr d).trace = tr ++ [.commit] ++ d := by
  unfold commitAndReply
  cases env.faults.commit <;> rfl

theorem commitAndReply_status (env : Env) (db t : Tables) (inp : CreateMovieInput)
    (a b : String) (tr d : List DbOp) :
    ((commitAndReply env db t inp a b tr d).response.status = 500 ∧
      (commitAndReply env db t inp a b tr d).db = db) ∨
    ((commitAndReply env db t inp a b tr d).response.status = 201 ∧
      env.faults.commit = none) := by
  unfold commitAndReply
  cases env.faults.commit with
  | none => right; exact ⟨rfl, rfl⟩
  | some e => left; exact ⟨rfl, rfl⟩

theorem createMovie_fk_failure (env : Env) (db : Tables) (body : Option CreateMovieInput)
    (h : ∃ m g, DbOp.insertMovieGenre m g ∈ (createMovieHandler env db body).trace ∧
      g ∉ db.genres.map Genre.ID) :
    (createMovieHandler env db body).response.status = 400 ∧
    DbOp.rollback ∈ (createMovieHandler env db body).trace ∧
    DbOp.commit ∉ (createMovieHandler env db body).trace ∧
    (createMovieHandler env db body).db = db := by
  obtain ⟨m, g, hmem, hg⟩ := h
  rcases createMovie_cases env db body with ⟨_, msg, e⟩ | ⟨inp, _, _, hB⟩
  · rw [e] at hmem; simp at hmem
  · rcases hB with ⟨_, e⟩ | ⟨_, _, e⟩ | ⟨_, _, _, _, e⟩ | ⟨_, _, _, _, resp, tr, hins, e⟩ |
      ⟨_, _, _, _, t2, tr, hins, e⟩ | ⟨_, _, _, e⟩
    · rw [e] at hmem; simp at hmem
    · rw [e] at hmem; simp at hmem
    · rw [e] at hmem; simp at hmem
    · obtain ⟨ext, g0, htr, hext, h400, _⟩ :=
        (insertGenres_spec env.unicodeLower env.faults env.newID inp.GenreIDs 0 _ _).2 resp tr hins
      rw [e] at hmem ⊢
      simp only at hmem ⊢
      have hlast : g0 ∉ db.genres.map Genre.ID := by
        rw [htr] at hmem
        rcases List.mem_append.mp hmem with h1 | h1
        · rcases List.mem_append.mp h1 with h2 | h2
          · rcases List.mem_append.mp h2 with h3 | h3
            · simp at h3
            · obtain ⟨g2, hg2, hin⟩ := hext _ h3
              injection hg2 with _ hg2
              rw [hg2] at hg
              exact absurd hin hg
          · simp only [List.mem_singleton, DbOp.insertMovieGenre.injEq] at h2
            rw [← h2.2]; exact hg
        · simp at h1
      refine ⟨h400 hlast, by simp, ?_, trivial⟩
      rw [htr]
      intro hc
      rcases List.mem_append.mp hc with h1 | h1
      · rcases List.mem_append.mp h1 with h2 | h2
        · rcases List.mem_append.mp h2 with h3 | h3
          · simp at h3
          · obtain ⟨g2, hg2, _⟩ := hext _ h3
            simp at hg2
        · simp at h2
      · simp at h1
    · obtain ⟨_, ext, htr, hext⟩ :=
        (insertGenres_spec env.unicodeLower env.faults env.newID inp.GenreIDs 0 _ _).1 t2 tr hins
      rw [e, commitAndReply_trace, htr] at hmem
      rcases List.mem_append.mp hmem with h1 | h1
      · rcases List.mem_append.mp h1 with h2 | h2
        · rcases List.mem_append.mp h2 with h3 | h3
          · simp at h3
          · obtain ⟨g2, hg2, hin⟩ := hext _ h3
            injection hg2 with _ hg2
            rw [hg2] at hg
            exact absurd hin hg
        · simp at h2
      · simp at h1
    · rw [e, commitAndReply_trace] at hmem
      simp at hmem

theorem createMovie_unchanged_unless_created (env : Env) (db : Tables)
    (body : Option CreateMovieInput)
    (h : (createMovieHandler env db body).response.status ≠ 201) :
    (createMovieHandler env db body).db = db := by
  rcases createMovie_cases env db body with ⟨_, msg, e⟩ | ⟨inp, _, _, hB⟩
  · rw [e]
  · rcases hB with ⟨_, e⟩ | ⟨_, _, e⟩ | ⟨_, _, _, _, e⟩ | ⟨_, _, _, _, resp, tr, hins, e⟩ |
      ⟨_, _, _, _, t2, tr, hins, e⟩ | ⟨_, _, _, e⟩
    · rw [e]
    · rw [e]
    · rw [e]
    · rw [e]
    · rw [e] at h ⊢
      rcases commitAndReply_status env db t2 inp (TrimSpace inp.Title)
        (TrimSpace inp.Description) tr [.closeStmt, .rollback] with hc | hc
      · exact hc.2
      · exact absurd hc.1 h
    · rw [e] at h ⊢
      rcases commitAndReply_status env db { db with movies := db.movies ++ [newMovieRow env inp] }
        inp (TrimSpace inp.Title) (TrimSpace inp.Description)
        [.begin, .insertMovie (newMovieRow env inp)] [.rollback] with hc | hc
      · exact hc.2
      · exact absurd hc.1 h

theorem createMovie_rejected (env : Env) (db : Tables) (inp : CreateMovieInput)
    (h : ¬ Valid env inp) :
    (createMovieHandler env db (some inp)).response.status = 400 ∧
    (createMovieHandler env db (some inp)).trace = [] ∧
    (createMovieHandler env db (some inp)).db = db := by
  rcases createMovie_cases env db (some inp) with ⟨_, msg, e⟩ | ⟨inp2, hb, hv, _⟩
  · rw [e]; exact ⟨rfl, rfl, rfl⟩
  · injection hb with hb
    rw [← hb] at hv
    exact absurd hv h

theorem execDeleteMovie_error (f : Faults) (t : Tables) (id e : String)
    (h : execDeleteMovie f t id = .error e) :
    f.delete = some e ∨
      (f.delete = none ∧ e = fkParentError ∧ id ∈ t.dependents ∧
        id ∈ t.movies.map MovieRow.id) := by
  unfold execDeleteMovie at h
  cases hf : f.delete with
  | some e2 =>
    rw [hf] at h
    simp only [Except.error.injEq] at h
    left; rw [h]
  | none =>
    rw [hf] at h
    simp only at h
    right
    split at h
    · simp at h
    · rename_i hhit
      split at h
      · rename_i hdep
        simp only [Except.error.injEq] at h
        refine ⟨rfl, h.symm, hdep, ?_⟩
        have hne : (t.movies.filter fun m => m.id = id) ≠ [] := by
          intro hc; rw [hc] at hhit; simp at hhit
        obtain ⟨m, hm⟩ := List.exists_mem_of_ne_nil _ hne
        rw [List.mem_filter] at hm
        exact List.mem_map.mpr ⟨m, hm.1, by simpa using hm.2⟩
      · simp at h

/-- Within the sizes that fit `int`, a seat lies inside the image bounds exactly when it
is not in the last row; the seats of the last row reach 4 pixel rows below the image. -/
theorem seatRect_in_bounds_iff (rows cols row col : Int)
    (hr1 : 1 ≤ rows) (hr2 : rows ≤ 219604096115589899)
    (hc2 : cols ≤ 219604096115589894)
    (h0 : 0 ≤ row) (h1 : row < rows) (h2 : 0 ≤ col) (h3 : col < cols) :
    (seatRect row col).Max.X ≤ (hallBounds rows cols).Max.X ∧
    (seatRect (rows - 1) col).Max.Y = (hallBounds rows cols).Max.Y + 4 ∧
    ((seatRect row col).In (hallBounds rows cols) = true ↔ row + 1 < rows) := by
  rw [seatRect_exact row col h0 (by omega) h2 (by omega),
    seatRect_exact (rows - 1) col (by omega) (by omega) h2 (by omega),
    hallBounds_exact rows cols (by omega) hr2 (by omega) hc2]
  refine ⟨by simp only; omega, by simp only; omega, ?_⟩
  unfold Rectangle.In Rectangle.Empty
  simp only
  have e1 : ¬ (20 + 42 * col ≥ 56 + 42 * col) := by omega
  have e2 : ¬ (44 + 42 * row ≥ 80 + 42 * row) := by omega
  simp only [e1, e2, decide_False, Bool.or_false, Bool.false_eq_true, if_false,
    Bool.and_eq_true, decide_eq_true_eq]
  constructor
  · intro h; omega
  · intro h; refine ⟨⟨⟨?_, ?_⟩, ?_⟩, ?_⟩ <;> omega

/-- Within the sizes that fit `int`, the rectangles of two different seats do not overlap. -/
theorem seatRect_disjoint (row col row2 col2 : Int)
    (h0 : 0 ≤ row) (h1 : row ≤ 219604096115589898) (h2 : 0 ≤ col) (h3 : col ≤ 219604096115589894)
    (k0 : 0 ≤ row2) (k1 : row2 ≤ 219604096115589898) (k2 : 0 ≤ col2)
    (k3 : col2 ≤ 219604096115589894) (hne : row ≠ row2 ∨ col ≠ col2) :
    (seatRect row col).Overlaps (seatRect row2 col2) = false := by
  rw [seatRect_exact row col h0 h1 h2 h3, seatRect_exact row2 col2 k0 k1 k2 k3]
  unfold Rectangle.Overlaps Rectangle.Empty
  simp only
  rw [Bool.eq_false_iff]
  intro h
  simp only [Bool.and_eq_true, Bool.not_eq_true', Bool.or_eq_false_iff,
    decide_eq_false_iff_not, decide_eq_true_eq] at h
  omega

theorem storeIfAbsent_created (mm : List (String × Movie)) (rows : List JoinedRow)
    (r : JoinedRow) (id : String)
    (hs : ∀ r2 ∈ rows, r2.created.getD 0 ≥ r.created.getD 0)
    (h1 : ∀ e ∈ mm, ∃ r2 ∈ rows, e.2.CreatedAt = r2.created.getD 0)
    (h2 : mm.Pairwise fun a b => a.2.CreatedAt ≥ b.2.CreatedAt) :
    (∀ e ∈ storeIfAbsent mm id r, ∃ r2 ∈ rows ++ [r], e.2.CreatedAt = r2.created.getD 0) ∧
    (storeIfAbsent mm id r).Pairwise fun a b => a.2.CreatedAt ≥ b.2.CreatedAt := by
  have hsub : ∀ e ∈ mm, ∃ r2 ∈ rows ++ [r], e.2.CreatedAt = r2.created.getD 0 := by
    intro e he
    obtain ⟨r2, hr2, h⟩ := h1 e he
    exact ⟨r2, List.mem_append_left _ hr2, h⟩
  unfold storeIfAbsent
  cases mm.lookup id with
  | some _ => exact ⟨hsub, h2⟩
  | none =>
    simp only
    constructor
    · intro e he
      rcases List.mem_append.mp he with he | he
      · exact hsub e he
      · simp only [List.mem_singleton] at he
        rw [he]
        exact ⟨r, by simp, rfl⟩
    · rw [List.pairwise_append]
      refine ⟨h2, List.pairwise_singleton _ _, ?_⟩
      intro a ha b hb
      simp only [List.mem_singleton] at hb
      rw [hb]
      obtain ⟨r2, hr2, h⟩ := h1 a ha
      rw [h]
      exact hs r2 hr2

theorem scanRow_created (mm : List (String × Movie)) (rows : List JoinedRow) (r : JoinedRow)
    (hs : ∀ r2 ∈ rows, r2.created.getD 0 ≥ r.created.getD 0)
    (h1 : ∀ e ∈ mm, ∃ r2 ∈ rows, e.2.CreatedAt = r2.created.getD 0)
    (h2 : mm.Pairwise fun a b => a.2.CreatedAt ≥ b.2.CreatedAt) :
    (∀ e ∈ scanRow mm r, ∃ r2 ∈ rows ++ [r], e.2.CreatedAt = r2.created.getD 0) ∧
    (scanRow mm r).Pairwise fun a b => a.2.CreatedAt ≥ b.2.CreatedAt := by
  unfold scanRow
  cases r.id with
  | none =>
    refine ⟨?_, h2⟩
    intro e he
    obtain ⟨r2, hr2, h⟩ := h1 e he
    exact ⟨r2, List.mem_append_left _ hr2, h⟩
  | some id =>
    obtain ⟨k1, k2⟩ := storeIfAbsent_created mm rows r id hs h1 h2
    simp only
    cases r.genreID with
    | none => exact ⟨k1, k2⟩
    | some g =>
      simp only
      constructor
      · intro e he
        obtain ⟨e0, he0, hee⟩ := List.mem_map.mp he
        obtain ⟨r2, hr2, h⟩ := k1 e0 he0
        refine ⟨r2, hr2, ?_⟩
        rw [← hee, ← h]
        split <;> rfl
      · rw [List.pairwise_map]
        refine k2.imp ?_
        intro a b hab
        have ha : ∀ e : String × Movie,
            (if e.1 = id then
              (e.1, { e.2 with Genres := e.2.Genres ++ [(⟨g, r.genreName.getD ""⟩ : Genre)] })
             else e).2.CreatedAt = e.2.CreatedAt := by
          intro e; split <;> rfl
        rw [ha a, ha b]
        exact hab

/-- When `range` visits the map in first-seen order and the rows come newest first, the
response is ordered newest first. -/
theorem listMovies_firstSeen_sorted (rows : List JoinedRow)
    (hs : rows.Pairwise fun a b => a.created.getD 0 ≥ b.created.getD 0) :
    (listMovies MapIter.firstSeen rows).Pairwise fun a b => a.CreatedAt ≥ b.CreatedAt := by
  have key : ∀ rows : List JoinedRow,
      (rows.Pairwise fun a b => a.created.getD 0 ≥ b.created.getD 0) →
      (∀ e ∈ groupRows rows, ∃ r2 ∈ rows, e.2.CreatedAt = r2.created.getD 0) ∧
      (groupRows rows).Pairwise fun a b => a.2.CreatedAt ≥ b.2.CreatedAt := by
    intro rows
    induction rows using List.reverseRecOn with
    | nil => intro _; exact ⟨by simp [groupRows], by simp [groupRows]⟩
    | append_singleton l a ih =>
      intro hp
      rw [List.pairwise_append] at hp
      obtain ⟨hl, _, hla⟩ := hp
      obtain ⟨i1, i2⟩ := ih hl
      have : groupRows (l ++ [a]) = scanRow (groupRows l) a := by
        unfold groupRows
        rw [List.foldl_append]; rfl
      rw [this]
      exact scanRow_created (groupRows l) l a (fun r2 hr2 => hla r2 hr2 a (by simp)) i1 i2
  unfold listMovies MapIter.firstSeen
  simp only [id]
  rw [List.pairwise_map]
  exact (key rows hs).2


/-! ### image.NewRGBA -/

theorem mul3NonNeg_exact (a b c : Nat) (hc : 1 ≤ c) (h : a * b * c ≤ 9223372036854775807) :
    mul3NonNeg a b c = ((a * b * c : Nat) : Int) := by
  have hab : a * b ≤ a * b * c := Nat.le_mul_of_pos_right _ hc
  have h1 : a * b / 18446744073709551616 = 0 := Nat.div_eq_of_lt (by omega)
  have h2 : a * b % 18446744073709551616 = a * b := Nat.mod_eq_of_lt (by omega)
  have h3 : a * b * c / 18446744073709551616 = 0 := Nat.div_eq_of_lt (by omega)
  have h4 : a * b * c % 18446744073709551616 = a * b * c := Nat.mod_eq_of_lt (by omega)
  have hneg : ¬ ((a : Int) < 0 ∨ (b : Int) < 0 ∨ (c : Int) < 0) := by omega
  unfold mul3NonNeg
  rw [if_neg hneg]
  simp only [Int.toNat_ofNat, h1, h2, h3, h4, ne_eq, not_true_eq_false, if_false]
  have hw : wrapInt ((a * b * c : Nat) : Int) = ((a * b * c : Nat) : Int) :=
    wrapInt_of_range _ (by unfold minInt; omega) (by unfold maxInt; omega)
  rw [hw]
  have : ¬ (((a * b * c : Nat) : Int) < 0) := by omega
  rw [if_neg this]

theorem bufferBytes_eq (rows cols : Int) :
    bufferBytes rows cols = 4 * (254 + 42 * cols) * (34 + 42 * rows) := by
  unfold bufferBytes margin seatSize seatGap legendWidth
  ring

theorem bufferBytes_bounds (rows cols : Int) (hr : 1 ≤ rows) (hc : 1 ≤ cols)
    (hfit : bufferBytes rows cols ≤ maxInt) :
    rows ≤ 219604096115589899 ∧ cols ≤ 219604096115589894 := by
  rw [bufferBytes_eq] at hfit
  unfold maxInt at hfit
  have h1 : 4 * (254 + 42 * cols) * 76 ≤ 4 * (254 + 42 * cols) * (34 + 42 * rows) :=
    mul_le_mul_of_nonneg_left (by omega) (by omega)
  have h2 : 4 * 296 * (34 + 42 * rows) ≤ 4 * (254 + 42 * cols) * (34 + 42 * rows) :=
    mul_le_mul_of_nonneg_right (by omega) (by omega)
  constructor <;> omega

theorem hallImage_exact (heap : Nat) (rows cols : Int) (hr : 1 ≤ rows) (hc : 1 ≤ cols)
    (hfit : bufferBytes rows cols ≤ maxInt) (hheap : bufferBytes rows cols ≤ heap) :
    hallImage heap rows cols = some ⟨⟨0, 0⟩, ⟨254 + 42 * cols, 34 + 42 * rows⟩⟩ := by
  obtain ⟨hrb, hcb⟩ := bufferBytes_bounds rows cols hr hc hfit
  rw [bufferBytes_eq] at hfit hheap
  unfold maxInt at hfit
  unfold hallImage
  rw [hallBounds_exact rows cols (by omega) hrb (by omega) hcb]
  have hdx : (⟨⟨0, 0⟩, ⟨254 + 42 * cols, 34 + 42 * rows⟩⟩ : Rectangle).Dx = 254 + 42 * cols := by
    unfold Rectangle.Dx subInt wrapInt; simp only; omega
  have hdy : (⟨⟨0, 0⟩, ⟨254 + 42 * cols, 34 + 42 * rows⟩⟩ : Rectangle).Dy = 34 + 42 * rows := by
    unfold Rectangle.Dy subInt wrapInt; simp only; omega
  obtain ⟨w, hw⟩ : ∃ w : Nat, (254 + 42 * cols) = (w : Int) :=
    ⟨(254 + 42 * cols).toNat, by omega⟩
  obtain ⟨h, hh⟩ : ∃ h : Nat, (34 + 42 * rows) = (h : Int) :=
    ⟨(34 + 42 * rows).toNat, by omega⟩
  rw [hw, hh] at hfit hheap
  have hnat : 4 * w * h ≤ 9223372036854775807 := by exact_mod_cast hfit
  have hnat2 : 4 * w * h ≤ heap := by exact_mod_cast hheap
  have hm : mul3NonNeg 4 (w : Int) (h : Int) = ((4 * w * h : Nat) : Int) :=
    mul3NonNeg_exact 4 w h (by omega) hnat
  unfold NewRGBA pixelBufferLength
  rw [hdx, hdy, hw, hh, hm]
  have hn : ¬ (((4 * w * h : Nat) : Int) < 0) := by omega
  simp only [hn, if_false, Int.toNat_ofNat, hnat2, if_true]


/-- For every sequence of joined rows and every order in which the map is visited, the
response holds each movie identifier of the rows exactly once, each movie with exactly
the genres of the rows that carry its identifier and a non-null genre id. -/
theorem listMovies_grouping (it : MapIter) (rows : List JoinedRow) :
    ((listMovies it rows).map Movie.ID).Nodup ∧
    (∀ id, id ∈ (listMovies it rows).map Movie.ID ↔ some id ∈ rows.map JoinedRow.id) ∧
    (∀ m ∈ listMovies it rows, m.Genres = rowGenres m.ID rows) := by
  refine ⟨?_, listMovies_mem_id it rows, listMovies_genres it rows⟩
  rw [(listMovies_ids_perm it rows).nodup_iff]
  exact (groupRows_inv rows).1

/-! ## The claims -/

/-- C1, the claim as written fails: `9223372036854775808` is a decimal integer literal with
a value greater than 0, and `parseIntOrDefault` returns the default 8, not that value
(`strconv.Atoi` reports a range error above the largest `int`). -/
theorem parseIntOrDefault_above_int_range :
    decimalLiteral "9223372036854775808" = some 9223372036854775808 ∧
    (0 : Int) < 9223372036854775808 ∧
    parseIntOrDefault "9223372036854775808" 8 = 8 ∧
    parseIntOrDefault "9223372036854775808" 8 ≠ 9223372036854775808 := by
  decide

/-- C1 (amended): `parseIntOrDefault s d` returns `v` when `s` is a decimal integer
literal whose value `v` satisfies `0 < v ≤ maxInt`, and returns `d` in every other case
(no literal, value zero or negative, value above the largest `int`); it is a total
function, so no error is reported.  `HallDiagramHandler` parses `rows`, `cols` and
`occupiedPct` this way against 8, 12 and 30, each from its own query value only, so that
a value that falls back replaces that parameter alone. -/
theorem parseIntOrDefault_spec (s : String) (d : Int) (q : HallQuery) :
    (∀ v, decimalLiteral s = some v → 0 < v → v ≤ maxInt → parseIntOrDefault s d = v) ∧
    ((∀ v, decimalLiteral s = some v → v ≤ 0 ∨ maxInt < v) → parseIntOrDefault s d = d) ∧
    hallParams q = ⟨parseIntOrDefault q.rows 8, parseIntOrDefault q.cols 12,
                    parseIntOrDefault q.occupiedPct 30⟩ ∧
    ((∀ v, decimalLiteral s = some v → v ≤ 0 ∨ maxInt < v) →
      hallParams ⟨s, q.cols, q.occupiedPct⟩ = { hallParams q with rows := 8 } ∧
      hallParams ⟨q.rows, s, q.occupiedPct⟩ = { hallParams q with cols := 12 } ∧
      hallParams ⟨q.rows, q.cols, s⟩ = { hallParams q with occupiedPct := 30 }) := by
  refine ⟨fun v h h0 h2 => parseIntOrDefault_of_literal s d v h h0 h2,
    fun h => parseIntOrDefault_of_other s d h, rfl, fun h => ?_⟩
  unfold hallParams
  simp only [parseIntOrDefault_of_other s _ h, and_self]

/-- C1, instance of the amended claim: `rows=12` is read as 12, and with `rows=0`, `cols=5`,
`occupiedPct=40` only `rows` falls back to its default. -/
theorem parseIntOrDefault_spec_witness :
    parseIntOrDefault "12" 8 = 12 ∧
    hallParams ⟨"0", "5", "40"⟩ = { hallParams ⟨"3", "5", "40"⟩ with rows := 8 } :=
  ⟨(parseIntOrDefault_spec "12" 8 ⟨"3", "5", "40"⟩).1 12 (by decide) (by decide) (by decide),
   ((parseIntOrDefault_spec "0" 8 ⟨"3", "5", "40"⟩).2.2.2 (by
      intro v hv
      have h0 : decimalLiteral "0" = some 0 := by decide
      rw [h0] at hv
      injection hv with hv
      left; omega)).1⟩

/-- C2, the claim as written fails, in three ways.  With `rows = 1` and
`cols = 9223372036854775807` the `int` product wraps and the image created is 212 pixels
wide: not the sum taken in the integers, and narrower than the 296 pixels of the hall of
one column.  With `rows = 1` and `cols = 219604096115589894` the width still fits `int`,
but `image.NewRGBA` panics whatever the memory, so no image is created.  With 100000 rows
and columns and 64 GiB that can be allocated the pixel buffer cannot be made, so no image
is created either. -/
theorem hallImage_not_as_claimed :
    hallImage 1073741824 1 9223372036854775807 = some ⟨⟨0, 0⟩, ⟨212, 76⟩⟩ ∧
    (212 : Int) ≠
      margin * 2 + 9223372036854775807 * (seatSize + seatGap) - seatGap + legendWidth ∧
    hallImage 1073741824 1 1 = some ⟨⟨0, 0⟩, ⟨296, 76⟩⟩ ∧
    ¬ ((⟨⟨0, 0⟩, ⟨296, 76⟩⟩ : Rectangle).Dx < (⟨⟨0, 0⟩, ⟨212, 76⟩⟩ : Rectangle).Dx) ∧
    hallWidth 219604096115589894 = 9223372036854775802 ∧
    hallImage 9223372036854775807 1 219604096115589894 = none ∧
    hallImage 68719476736 100000 100000 = none := by
  decide

/-- C2 (amended): for every `rows ≥ 1` and `cols ≥ 1` whose pixel buffer of
`4 * width * height` bytes, the two sums taken in the integers, does not exceed the
largest `int` and can be allocated, `image.NewRGBA` returns and the image created is
`margin*2 + cols*(seatSize+seatGap) - seatGap + legendWidth` pixels wide and
`margin*2 + rows*(seatSize+seatGap) - seatGap` pixels tall, both strictly positive; for
every smaller number of columns (of rows) the image is created as well and is strictly
narrower (lower), so that width and height are strictly increasing in `cols` and `rows`
over these halls; for 3 rows and 4 columns the image is 422 by 160. -/
theorem hallImage_size (heap : Nat) (rows cols : Int) (hr : 1 ≤ rows) (hc : 1 ≤ cols)
    (hfit : bufferBytes rows cols ≤ maxInt) (hheap : bufferBytes rows cols ≤ heap) :
    ∃ img, hallImage heap rows cols = some img ∧
      img.Min = ⟨0, 0⟩ ∧
      img.Dx = margin * 2 + cols * (seatSize + seatGap) - seatGap + legendWidth ∧
      img.Dy = margin * 2 + rows * (seatSize + seatGap) - seatGap ∧
      0 < img.Dx ∧ 0 < img.Dy ∧
      (∀ cols2, 1 ≤ cols2 → cols2 < cols →
        ∃ img2, hallImage heap rows cols2 = some img2 ∧ img2.Dx < img.Dx ∧ img2.Dy = img.Dy) ∧
      (∀ rows2, 1 ≤ rows2 → rows2 < rows →
        ∃ img2, hallImage heap rows2 cols = some img2 ∧ img2.Dy < img.Dy ∧ img2.Dx = img.Dx) ∧
      (270080 ≤ heap →
        ∃ img3, hallImage heap 3 4 = some img3 ∧ img3.Dx = 422 ∧ img3.Dy = 160) := by
  have hdx : ∀ r c : Int, 1 ≤ r → 1 ≤ c → bufferBytes r c ≤ maxInt →
      (⟨⟨0, 0⟩, ⟨254 + 42 * c, 34 + 42 * r⟩⟩ : Rectangle).Dx = 254 + 42 * c := by
    intro r c h1 h2 h3
    have := bufferBytes_bounds r c h1 h2 h3
    unfold Rectangle.Dx subInt wrapInt; simp only; omega
  have hdy : ∀ r c : Int, 1 ≤ r → 1 ≤ c → bufferBytes r c ≤ maxInt →
      (⟨⟨0, 0⟩, ⟨254 + 42 * c, 34 + 42 * r⟩⟩ : Rectangle).Dy = 34 + 42 * r := by
    intro r c h1 h2 h3
    have := bufferBytes_bounds r c h1 h2 h3
    unfold Rectangle.Dy subInt wrapInt; simp only; omega
  have hmonoC : ∀ c2, 1 ≤ c2 → c2 < cols → bufferBytes rows c2 ≤ bufferBytes rows cols := by
    intro c2 h1 h2
    rw [bufferBytes_eq, bufferBytes_eq]
    exact mul_le_mul_of_nonneg_right (by omega) (by omega)
  have hmonoR : ∀ r2, 1 ≤ r2 → r2 < rows → bufferBytes r2 cols ≤ bufferBytes rows cols := by
    intro r2 h1 h2
    rw [bufferBytes_eq, bufferBytes_eq]
    exact mul_le_mul_of_nonneg_left (by omega) (by omega)
  refine ⟨_, hallImage_exact heap rows cols hr hc hfit hheap, rfl, ?_, ?_, ?_, ?_, ?_, ?_, ?_⟩
  · rw [hdx rows cols hr hc hfit]; unfold margin seatSize seatGap legendWidth; omega
  · rw [hdy rows cols hr hc hfit]; unfold margin seatSize seatGap; omega
  · rw [hdx rows cols hr hc hfit]; omega
  · rw [hdy rows cols hr hc hfit]; omega
  · intro c2 h1 h2
    have hf2 : bufferBytes rows c2 ≤ maxInt := le_trans (hmonoC c2 h1 h2) hfit
    have hh2 : bufferBytes rows c2 ≤ heap := le_trans (hmonoC c2 h1 h2) hheap
    refine ⟨_, hallImage_exact heap rows c2 hr h1 hf2 hh2, ?_, ?_⟩
    · rw [hdx rows c2 hr h1 hf2, hdx rows cols hr hc hfit]; omega
    · rw [hdy rows c2 hr h1 hf2, hdy rows cols hr hc hfit]
  · intro r2 h1 h2
    have hf2 : bufferBytes r2 cols ≤ maxInt := le_trans (hmonoR r2 h1 h2) hfit
    have hh2 : bufferBytes r2 cols ≤ heap := le_trans (hmonoR r2 h1 h2) hheap
    refine ⟨_, hallImage_exact heap r2 cols h1 hc hf2 hh2, ?_, ?_⟩
    · rw [hdy r2 cols h1 hc hf2, hdy rows cols hr hc hfit]; omega
    · rw [hdx r2 cols h1 hc hf2, hdx rows cols hr hc hfit]
  · intro h3
    have hb : bufferBytes 3 4 = 270080 := by decide
    refine ⟨_, hallImage_exact heap 3 4 (by decide) (by decide) (by rw [hb]; decide)
      (by rw [hb]; exact_mod_cast h3), by decide, by decide⟩

/-- C2, instance of the amended claim: with 1 GiB that can be allocated the image of the
default hall of 8 rows and 12 columns is created, 758 by 370. -/
theorem hallImage_size_witness :
    ∃ img, hallImage 1073741824 8 12 = some img ∧ img.Dx = 758 ∧ img.Dy = 370 :=
  (fun h => h.elim fun img hi => ⟨img, hi.1, hi.2.2.1.trans (by decide), hi.2.2.2.1.trans (by decide)⟩)
    (hallImage_size 1073741824 8 12 (by decide) (by decide) (by decide) (by decide))

/-- C3: in a hall of `rows ≥ 1` rows, for every row `r < rows` and either occupancy outcome,
the fill colour is a function of the pair (VIP, occupied): the row is VIP exactly when it
is one of the last `min 2 rows` rows, a VIP seat is (0,70,200) when free and (150,50,150)
when occupied, another seat is (0,180,0) when free and (200,0,0) when occupied; exactly
`min 2 rows` rows are VIP; the four colours and the border colour are pairwise distinct. -/
theorem seatColour_spec (rows r : Nat) (occupied : Bool) (h1 : 1 ≤ rows)
    (hmax : (rows : Int) ≤ maxInt) (hr : r < rows) :
    (isVIP rows r = true ↔ rows - min 2 rows ≤ r) ∧
    seatColour rows r occupied = seatFill (isVIP rows r) occupied ∧
    (rows - min 2 rows ≤ r → occupied = false → seatColour rows r occupied = ⟨0, 70, 200, 255⟩) ∧
    (rows - min 2 rows ≤ r → occupied = true → seatColour rows r occupied = ⟨150, 50, 150, 255⟩) ∧
    (r < rows - min 2 rows → occupied = false → seatColour rows r occupied = ⟨0, 180, 0, 255⟩) ∧
    (r < rows - min 2 rows → occupied = true → seatColour rows r occupied = ⟨200, 0, 0, 255⟩) ∧
    (vipRows rows).length = min 2 rows ∧
    [colFree, colOccupied, colVipFree, colVipOcc, colSeatBorder].Nodup := by
  have hv : isVIP rows r = true ↔ rows - min 2 rows ≤ r := by
    rw [isVIP_iff (rows : Int) (r : Int) (by omega) hmax]
    omega
  refine ⟨hv, rfl, ?_, ?_, ?_, ?_, vipRows_length rows h1 hmax, by decide⟩
  · intro h ho
    unfold seatColour
    rw [hv.mpr h, ho]; rfl
  · intro h ho
    unfold seatColour
    rw [hv.mpr h, ho]; rfl
  · intro h ho
    have : isVIP rows r = false := by
      rw [← Bool.not_eq_true, hv]; omega
    unfold seatColour
    rw [this, ho]; rfl
  · intro h ho
    have : isVIP rows r = false := by
      rw [← Bool.not_eq_true, hv]; omega
    unfold seatColour
    rw [this, ho]; rfl

/-- C3, instance: in a hall of 3 rows, row 1 is VIP and row 0 is not. -/
theorem seatColour_spec_witness :
    seatColour 3 1 true = ⟨150, 50, 150, 255⟩ ∧ seatColour 3 0 false = ⟨0, 180, 0, 255⟩ :=
  ⟨(seatColour_spec 3 1 true (by decide) (by decide) (by decide)).2.2.2.1 (by decide) rfl,
   (seatColour_spec 3 0 false (by decide) (by decide) (by decide)).2.2.2.2.1 (by decide) rfl⟩

/-- C9, the claim as written fails: for `occupiedPct=150` the handler uses `p = 150`, which
is not in 0..100, and the draws `r` of 0..99 with `r < p` are 100, not 150. -/
theorem occupiedPct_not_clamped :
    parseIntOrDefault "150" 30 = 150 ∧ ¬ ((150 : Int) ≤ 100) ∧
    (occupiedDraws (parseIntOrDefault "150" 30)).length = 100 ∧
    ((occupiedDraws (parseIntOrDefault "150" 30)).length : Int) ≠ parseIntOrDefault "150" 30 := by
  decide

/-- C9 (amended): for every value `s` of `occupiedPct`, `p = parseIntOrDefault s 30` is an
integer with `1 ≤ p ≤ maxInt` (never 0, and not limited to 100), and among the 100 results
0..99 of `rand.Intn(100)` exactly `min p 100` satisfy the test `r < p`: exactly `p` of them
when `p ≤ 100`, all of them when `p ≥ 100`. -/
theorem occupiedDraws_count (s : String) :
    1 ≤ parseIntOrDefault s 30 ∧ parseIntOrDefault s 30 ≤ maxInt ∧
    ((occupiedDraws (parseIntOrDefault s 30)).length : Int) = min (parseIntOrDefault s 30) 100 ∧
    (parseIntOrDefault s 30 ≤ 100 →
      ((occupiedDraws (parseIntOrDefault s 30)).length : Int) = parseIntOrDefault s 30) ∧
    (100 ≤ parseIntOrDefault s 30 → (occupiedDraws (parseIntOrDefault s 30)).length = 100) := by
  have hr := parseIntOrDefault_range s 30 (by decide) (by decide)
  have hl := occupiedDraws_length (parseIntOrDefault s 30) (by omega)
  refine ⟨hr.1, hr.2, hl, ?_, ?_⟩
  · intro h; rw [hl]; omega
  · intro h; omega

/-- C9, instance of the amended claim: `occupiedPct=45` marks 45 of the 100 draws. -/
theorem occupiedDraws_count_witness :
    ((occupiedDraws (parseIntOrDefault "45" 30)).length : Int) = parseIntOrDefault "45" 30 :=
  (occupiedDraws_count "45").2.2.2.1 (by decide)

/-- C10, the code at the default hall (8 rows, 12 columns): the image is 370 pixels tall,
the seats of the last row occupy the pixel rows 338 to 373, so their rectangle is not
inside the image, while the seats of the row before are; the bottom border line `y = 373`
is outside the image, and of the 144 calls of `img.Set` that `drawRectBorder` makes for
such a seat only 100 paint a pixel, none of them on the bottom line. -/
theorem lastRow_seat_exceeds_image :
    hallParams ⟨"", "", ""⟩ = ⟨8, 12, 30⟩ ∧
    hallBounds 8 12 = ⟨⟨0, 0⟩, ⟨758, 370⟩⟩ ∧
    seatRect 7 0 = ⟨⟨20, 338⟩, ⟨56, 374⟩⟩ ∧
    (seatRect 7 0).In (hallBounds 8 12) = false ∧
    (seatRect 7 11).In (hallBounds 8 12) = false ∧
    (seatRect 6 0).In (hallBounds 8 12) = true ∧
    Point.In ⟨20, 373⟩ (hallBounds 8 12) = false ∧
    (drawRectBorder (seatRect 7 0)).length = 144 ∧
    (paintedBorder (hallBounds 8 12) (seatRect 7 0)).length = 100 ∧
    (paintedBorder (hallBounds 8 12) (seatRect 7 0)).all (fun p => decide (p.Y < 370)) = true := by
  refine ⟨by decide, by decide, by decide, by decide, by decide, by decide, by decide, ?_, ?_, ?_⟩
  · set_option maxRecDepth 100000 in decide
  · set_option maxRecDepth 100000 in decide
  · set_option maxRecDepth 100000 in decide

/-- C4, the code on two movies whose rows the query returns newest first: when `range`
visits the map in the other order the response lists the older movie first, and the
response differs from the one in first-seen order. -/
theorem listMovies_follows_map_order :
    (listMovies MapIter.lastSeen
        [⟨some "a", some "A", some "x", none, some 2, none, none⟩,
         ⟨some "b", some "B", some "y", none, some 1, none, none⟩]).map
      (fun m => (m.ID, m.CreatedAt)) = [("b", 1), ("a", 2)] ∧
    (listMovies MapIter.firstSeen
        [⟨some "a", some "A", some "x", none, some 2, none, none⟩,
         ⟨some "b", some "B", some "y", none, some 1, none, none⟩]).map
      (fun m => (m.ID, m.CreatedAt)) = [("a", 2), ("b", 1)] := by
  decide

/-- C5, the code on a movie whose only row has a `NULL` genre: the handler stores the
empty slice `[]Genre{}` for it, and the JSON object written has the fields `id`, `title`,
`description` and `createdAt` and no `genres` field, neither with the empty array nor
with anything else; a movie with a genre does get the field. -/
theorem encodeMovie_omits_empty_genres :
    listMovies MapIter.firstSeen [⟨some "m1", some "T", some "D", none, some 5, none, none⟩]
      = [⟨"m1", "T", "D", "", [], 5⟩] ∧
    jsonKeys (encodeMovie ⟨"m1", "T", "D", "", [], 5⟩)
      = ["id", "title", "description", "createdAt"] ∧
    ("genres", JsonValue.genres []) ∉ encodeMovie ⟨"m1", "T", "D", "", [], 5⟩ ∧
    "genres" ∉ jsonKeys (encodeMovie ⟨"m1", "T", "D", "", [], 5⟩) ∧
    jsonKeys (encodeMovie ⟨"m2", "T", "D", "", [⟨"g1", "Drama"⟩], 5⟩)
      = ["id", "title", "description", "genres", "createdAt"] := by
  decide

/-- C6: for every request and every state of the tables, a request whose title or
description is empty after trimming, or one of whose genre identifiers does not parse as a
UUID, is answered 400 with no call to the storage layer (no transaction, no write) and the
tables unchanged; and when an association insert is executed for a genre identifier that
is not in `genres` (the storage layer answers with its foreign-key error), the answer is
400, the transaction is rolled back and not committed, and the committed tables, `movies`
and `movie_genres` included, are those before the request.  In every case an answer
400 leaves the tables unchanged. -/
theorem createMovie_client_error_atomic (env : Env) (db : Tables)
    (body : Option CreateMovieInput) :
    (∀ inp, body = some inp →
      (TrimSpace inp.Title = "" ∨ TrimSpace inp.Description = "" ∨
        ∃ g ∈ inp.GenreIDs, env.uuidParses g = false) →
      (createMovieHandler env db body).response.status = 400 ∧
      (createMovieHandler env db body).trace = [] ∧
      (createMovieHandler env db body).db = db) ∧
    ((∃ m g, DbOp.insertMovieGenre m g ∈ (createMovieHandler env db body).trace ∧
        g ∉ db.genres.map Genre.ID) →
      (createMovieHandler env db body).response.status = 400 ∧
      DbOp.rollback ∈ (createMovieHandler env db body).trace ∧
      DbOp.commit ∉ (createMovieHandler env db body).trace ∧
      (createMovieHandler env db body).db = db ∧
      (createMovieHandler env db body).db.movies = db.movies ∧
      (createMovieHandler env db body).db.movieGenres = db.movieGenres) ∧
    ((createMovieHandler env db body).response.status = 400 →
      (createMovieHandler env db body).db = db) := by
  refine ⟨?_, ?_, ?_⟩
  · intro inp hb hbad
    rw [hb]
    apply createMovie_rejected
    intro hv
    rcases hbad with h | h | ⟨g, hg, h⟩
    · exact hv.1 h
    · exact hv.2.1 h
    · rw [hv.2.2 g hg] at h; simp at h
  · intro h
    obtain ⟨h1, h2, h3, h4⟩ := createMovie_fk_failure env db body h
    exact ⟨h1, h2, h3, h4, by rw [h4], by rw [h4]⟩
  · intro h
    apply createMovie_unchanged_unless_created
    rw [h]; decide

/-- C6, instances: a request with a blank title, and a request naming a genre that is not
in the tables, are answered 400 and leave the sample tables as they were. -/
theorem createMovie_client_error_atomic_witness :
    ((createMovieHandler sampleEnv sampleTables
        (some ⟨"  ", "Two men", "", [dramaID]⟩)).response.status = 400 ∧
      (createMovieHandler sampleEnv sampleTables
        (some ⟨"  ", "Two men", "", [dramaID]⟩)).trace = []) ∧
    ((createMovieHandler sampleEnv sampleTables
        (some ⟨"Heat", "Two men", "", [dramaID, "00000000-0000-0000-0000-000000000000"]⟩)
      ).response.status = 400 ∧
     (createMovieHandler sampleEnv sampleTables
        (some ⟨"Heat", "Two men", "", [dramaID, "00000000-0000-0000-0000-000000000000"]⟩)
      ).db = sampleTables) :=
  ⟨(fun h => ⟨h.1, h.2.1⟩)
      ((createMovie_client_error_atomic sampleEnv sampleTables
          (some ⟨"  ", "Two men", "", [dramaID]⟩)).1 _ rfl (Or.inl (by decide))),
   (fun h => ⟨h.1, h.2.2.2.1⟩)
      ((createMovie_client_error_atomic sampleEnv sampleTables
          (some ⟨"Heat", "Two men", "", [dramaID, "00000000-0000-0000-0000-000000000000"]⟩)).2.1
        ⟨"m1", "00000000-0000-0000-0000-000000000000", by decide, by decide⟩)⟩

end MovieReservation
